import Mathlib

/-!
Verification of `crates/tao-ffi/examples/decode_audio.c` against its
natural-language specification.

The C program is a driver: it sequences calls into the Tao media library
(demux + decode) through a flat C API and prints diagnostics.  We embed the
driver shallowly: the library's responses are an explicit environment
(`Env`), and running the driver produces the trace of boundary calls it
makes (`Event`).  Packet and frame handles are identified positionally (the
n-th packet handed out gets id n), which models allocator freshness
structurally.  The counters `packet_count` and `total_samples` of the C
program only feed the final summary `printf` and are not modelled;
`frame_count` is modelled because it gates the per-frame diagnostic print.
-/

namespace DecodeAudio

/-- Error codes from the C header block of decode_audio.c. -/
def TAO_OK : Int := 0

/-- Generic error code. -/
def TAO_ERROR : Int := -1

/-- End-of-stream code. -/
def TAO_EOF : Int := -2

/-- Backpressure code: the decoder needs another packet. -/
def TAO_NEED_MORE_DATA : Int := -3

/-- Media type tag for audio streams. -/
def TAO_MEDIA_TYPE_AUDIO : Int := 1

/-- Media type tag for video streams. -/
def TAO_MEDIA_TYPE_VIDEO : Int := 2

/-- A compressed packet as observable through the C accessor surface:
stream index, presentation timestamp, payload size. -/
structure Packet where
  streamIndex : Int
  pts : Int
  size : Int
  deriving DecidableEq, Repr

/-- A decoded frame as observable through the accessors the demo uses. -/
structure Frame where
  isAudio : Bool
  nbSamples : Int
  sampleRate : Int
  deriving DecidableEq, Repr

/-- One outcome of `tao_format_read_packet`, as supplied by the environment:
the return code, the packet written through the out-parameter (if any), and
the code `tao_codec_send_packet` would return were this packet submitted. -/
structure ReadOutcome where
  ret : Int
  pkt : Option Packet
  sendRet : Int
  deriving DecidableEq, Repr

/-- One outcome of `tao_codec_receive_frame`, as supplied by the
environment: return code and the frame written through the out-parameter. -/
structure RecvOutcome where
  ret : Int
  frame : Option Frame
  deriving DecidableEq, Repr

/-- The library side of the boundary: everything `main` observes. -/
structure Env where
  openInputOk : Bool
  streams : List (Int × Int)
  createDecoderOk : Bool
  openDecoderRet : Int
  reads : List ReadOutcome
  recvs : List RecvOutcome
  deriving Repr

/-- One observable action of the demo program: a call across the C
boundary (with its arguments and result) or a diagnostic message that
distinguishes control paths. -/
inductive Event where
  | taoInit
  | taoShutdown
  | formatOpenInput (ok : Bool)
  | formatClose
  | getStreamCount (n : Nat)
  | getStreamMediaType (i : Nat) (mt : Int)
  | getStreamCodecId (i : Nat) (cid : Int)
  | codecCreateDecoder (codecId : Int) (ok : Bool)
  | codecOpenDecoder (sampleRate : Int) (channels : Int)
      (extraDataNull : Bool) (extraDataSize : Int) (ret : Int)
  | codecClose
  | readPacket (ret : Int) (pid : Option Nat)
  | msgEndOfFile
  | msgReadError (ret : Int)
  | packetStreamIndex (pid : Nat) (v : Int)
  | packetPts (pid : Nat) (v : Int)
  | sendPacket (pid : Nat) (streamIdx : Int) (ret : Int)
  | packetFree (pid : Nat)
  | receiveFrame (ret : Int) (fid : Option Nat)
  | frameIsAudio (fid : Nat) (v : Bool)
  | frameNbSamples (fid : Nat) (v : Int)
  | frameSampleRate (fid : Nat) (v : Int)
  | frameFree (fid : Nat)
  | msgFrameInfo (frameNum : Int) (nb : Int) (sr : Int)
  deriving DecidableEq, Repr

/-- Result of the inner `while (1)` receive loop (decode_audio.c lines
190-215): the events it emits, the receive outcomes left unconsumed, the
next fresh frame id, and the updated `frame_count`. -/
structure DrainResult where
  events : List Event
  remaining : List RecvOutcome
  nextFid : Nat
  frameCount : Int
  deriving Repr

/-- The inner receive loop of decode_audio.c (lines 190-215): call
`tao_codec_receive_frame`; break on `TAO_NEED_MORE_DATA`/`TAO_EOF`, on any
other non-`TAO_OK` code, or on a NULL frame; otherwise query the frame
(`tao_frame_is_audio`, and for audio `tao_frame_nb_samples`,
`tao_frame_sample_rate`, printing the first five frames), free it, and
loop. -/
def drainLoop : List RecvOutcome → Nat → Int → DrainResult
  | [], fid, fc => ⟨[], [], fid, fc⟩
  | q :: qrest, fid, fc =>
    match q.frame with
    | none => ⟨[Event.receiveFrame q.ret none], qrest, fid, fc⟩
    | some f =>
      if q.ret = TAO_NEED_MORE_DATA ∨ q.ret = TAO_EOF then
        ⟨[Event.receiveFrame q.ret (some fid)], qrest, fid + 1, fc⟩
      else if q.ret ≠ TAO_OK then
        ⟨[Event.receiveFrame q.ret (some fid)], qrest, fid + 1, fc⟩
      else if f.isAudio then
        ⟨Event.receiveFrame q.ret (some fid) ::
           Event.frameIsAudio fid f.isAudio ::
           Event.frameNbSamples fid f.nbSamples ::
           Event.frameSampleRate fid f.sampleRate ::
           ((if fc + 1 ≤ 5 then
               [Event.msgFrameInfo (fc + 1) f.nbSamples f.sampleRate]
             else []) ++
            (Event.frameFree fid :: (drainLoop qrest (fid + 1) (fc + 1)).events)),
         (drainLoop qrest (fid + 1) (fc + 1)).remaining,
         (drainLoop qrest (fid + 1) (fc + 1)).nextFid,
         (drainLoop qrest (fid + 1) (fc + 1)).frameCount⟩
      else
        ⟨Event.receiveFrame q.ret (some fid) ::
           Event.frameIsAudio fid f.isAudio ::
           Event.frameFree fid :: (drainLoop qrest (fid + 1) fc).events,
         (drainLoop qrest (fid + 1) fc).remaining,
         (drainLoop qrest (fid + 1) fc).nextFid,
         (drainLoop qrest (fid + 1) fc).frameCount⟩

/-- The outer decode loop of decode_audio.c (lines 160-216): read a packet;
on `TAO_EOF` print the end-of-file message and break; on any other
non-`TAO_OK` code or a NULL packet print the read-error message and break;
free-and-skip packets of other streams; otherwise send the packet, free it,
and if the send returned `TAO_OK` drain frames before the next read.
An exhausted outcome list simply ends the modelled run. -/
def decodeLoop (a : Int) : List ReadOutcome → List RecvOutcome → Nat → Nat → Int → List Event
  | [], _, _, _, _ => []
  | r :: rest, recvs, pid, fid, fc =>
    if r.ret = TAO_EOF then
      [Event.readPacket r.ret (if r.pkt.isSome then some pid else none),
       Event.msgEndOfFile]
    else
      match r.pkt with
      | none => [Event.readPacket r.ret none, Event.msgReadError r.ret]
      | some p =>
        if r.ret ≠ TAO_OK then
          [Event.readPacket r.ret (some pid), Event.msgReadError r.ret]
        else if p.streamIndex ≠ a then
          Event.readPacket r.ret (some pid) ::
            Event.packetStreamIndex pid p.streamIndex ::
            Event.packetFree pid ::
            decodeLoop a rest recvs (pid + 1) fid fc
        else if r.sendRet ≠ TAO_OK then
          Event.readPacket r.ret (some pid) ::
            Event.packetStreamIndex pid p.streamIndex ::
            Event.sendPacket pid p.streamIndex r.sendRet ::
            Event.packetFree pid ::
            decodeLoop a rest recvs (pid + 1) fid fc
        else
          Event.readPacket r.ret (some pid) ::
            Event.packetStreamIndex pid p.streamIndex ::
            Event.sendPacket pid p.streamIndex r.sendRet ::
            Event.packetFree pid ::
            ((drainLoop recvs fid fc).events ++
             decodeLoop a rest (drainLoop recvs fid fc).remaining (pid + 1)
               (drainLoop recvs fid fc).nextFid (drainLoop recvs fid fc).frameCount)

/-- The stream-enumeration loop of decode_audio.c (lines 116-125): for each
stream, query its media type and codec id. -/
def streamInfoEvents : Nat → List (Int × Int) → List Event
  | _, [] => []
  | i, s :: rest =>
    Event.getStreamMediaType i s.1 ::
      Event.getStreamCodecId i s.2 :: streamInfoEvents (i + 1) rest

/-- The first-audio-stream selection of decode_audio.c (lines 114-125):
the first stream whose media type is `TAO_MEDIA_TYPE_AUDIO`, together with
its codec id; `none` when there is no audio stream. -/
def findFirstAudio : List (Int × Int) → Option (Nat × Int)
  | [] => none
  | s :: rest =>
    if s.1 = TAO_MEDIA_TYPE_AUDIO then some (0, s.2)
    else (findFirstAudio rest).map fun ic => (ic.1 + 1, ic.2)

/-- The whole of `main` (decode_audio.c lines 84-230): usage check before
`tao_init`; open input; enumerate streams and pick the first audio one;
create and open the decoder with hard-coded parameters 44100 Hz, 2
channels, NULL/0 extra data; run the decode loop; close and shut down.
Returns the trace of boundary events and the process exit code. -/
def runMain (argc : Nat) (env : Env) : List Event × Int :=
  if argc < 2 then ([], 1)
  else if env.openInputOk = false then
    ([Event.taoInit, Event.formatOpenInput false, Event.taoShutdown], 1)
  else
    match findFirstAudio env.streams with
    | none =>
      (([Event.taoInit, Event.formatOpenInput true,
         Event.getStreamCount env.streams.length] ++
        streamInfoEvents 0 env.streams) ++
       [Event.formatClose, Event.taoShutdown], 1)
    | some ic =>
      if env.createDecoderOk = false then
        (([Event.taoInit, Event.formatOpenInput true,
           Event.getStreamCount env.streams.length] ++
          streamInfoEvents 0 env.streams) ++
         [Event.codecCreateDecoder ic.2 false, Event.formatClose,
          Event.taoShutdown], 1)
      else if env.openDecoderRet ≠ TAO_OK then
        (([Event.taoInit, Event.formatOpenInput true,
           Event.getStreamCount env.streams.length] ++
          streamInfoEvents 0 env.streams) ++
         [Event.codecCreateDecoder ic.2 true,
          Event.codecOpenDecoder 44100 2 true 0 env.openDecoderRet,
          Event.codecClose, Event.formatClose, Event.taoShutdown], 1)
      else
        (([Event.taoInit, Event.formatOpenInput true,
           Event.getStreamCount env.streams.length] ++
          streamInfoEvents 0 env.streams) ++
         ([Event.codecCreateDecoder ic.2 true,
           Event.codecOpenDecoder 44100 2 true 0 env.openDecoderRet] ++
          (decodeLoop (ic.1 : Int) env.reads env.recvs 0 0 0 ++
           [Event.codecClose, Event.formatClose, Event.taoShutdown])), 0)

/-- Modelled from the spec: the Demuxer itself is not among the visible
sources (only the C demo that calls it is).  Spec §4.1/§8: `read_packet`
returns the container's packets in storage order, one per call, and signals
`EndOfStream` only after all have been delivered; thereafter every call
returns `EndOfStream` again.  The state is the list of not-yet-delivered
packets. -/
structure FormatState where
  remaining : List Packet
  deriving DecidableEq, Repr

/-- Modelled from the spec: one `read_packet` call on the modelled Demuxer.
Returns `(status, packet)` and the successor state. -/
def fmtRead : FormatState → (Int × Option Packet) × FormatState
  | ⟨[]⟩ => ((TAO_EOF, none), ⟨[]⟩)
  | ⟨p :: rest⟩ => ((TAO_OK, some p), ⟨rest⟩)

/-- Modelled from the spec: the result of the k-th (0-based) `read_packet`
call starting from state `s`. -/
def fmtReadAt (s : FormatState) : Nat → Int × Option Packet
  | 0 => (fmtRead s).1
  | k + 1 => fmtReadAt (fmtRead s).2 k

/-! ### Trace predicates -/

/-- Packet id mentioned by an event, if any. -/
def pktIdOf : Event → Option Nat
  | .readPacket _ p => p
  | .packetStreamIndex p _ => some p
  | .packetPts p _ => some p
  | .sendPacket p _ _ => some p
  | .packetFree p => some p
  | _ => none

/-- Frame id mentioned by an event, if any. -/
def frmIdOf : Event → Option Nat
  | .receiveFrame _ f => f
  | .frameIsAudio f _ => some f
  | .frameNbSamples f _ => some f
  | .frameSampleRate f _ => some f
  | .frameFree f => some f
  | _ => none

/-- The event is a successful hand-over of packet `q` to the caller:
`tao_format_read_packet` returned `TAO_OK` with a non-NULL packet. -/
def obtainsPacket (q : Nat) : Event → Bool
  | .readPacket ret p => decide (ret = TAO_OK ∧ p = some q)
  | _ => false

/-- The event is `tao_packet_free` on packet `q`. -/
def freesPacket (q : Nat) : Event → Bool
  | .packetFree p => decide (p = q)
  | _ => false

/-- The event mentions packet `q` in any way (read hand-over, accessor,
submission, or free). -/
def mentionsPacket (q : Nat) (e : Event) : Bool :=
  decide (pktIdOf e = some q)

/-- The event is a successful hand-over of frame `g` to the caller:
`tao_codec_receive_frame` returned `TAO_OK` with a non-NULL frame. -/
def obtainsFrame (g : Nat) : Event → Bool
  | .receiveFrame ret f => decide (ret = TAO_OK ∧ f = some g)
  | _ => false

/-- The event is `tao_frame_free` on frame `g`. -/
def freesFrame (g : Nat) : Event → Bool
  | .frameFree f => decide (f = g)
  | _ => false

/-- The event mentions frame `g` in any way. -/
def mentionsFrame (g : Nat) (e : Event) : Bool :=
  decide (frmIdOf e = some g)

/-- The event is a `tao_format_read_packet` call. -/
def isReadPacketEv : Event → Bool
  | .readPacket _ _ => true
  | _ => false

/-- The event is a `tao_packet_pts` call. -/
def isPacketPtsEv : Event → Bool
  | .packetPts _ _ => true
  | _ => false

/-- The event is a `tao_codec_send_packet` call. -/
def isSendPacketEv : Event → Bool
  | .sendPacket _ _ _ => true
  | _ => false

/-- The event is the `tao_init` call. -/
def isInitEv : Event → Bool
  | .taoInit => true
  | _ => false

/-- The event is the `tao_shutdown` call. -/
def isShutdownEv : Event → Bool
  | .taoShutdown => true
  | _ => false

/-- The event is the `tao_format_close` call. -/
def isFormatCloseEv : Event → Bool
  | .formatClose => true
  | _ => false

/-- The event is the `tao_codec_close` call. -/
def isCodecCloseEv : Event → Bool
  | .codecClose => true
  | _ => false

/-- The event is a `tao_codec_open_decoder` call. -/
def isCodecOpenEv : Event → Bool
  | .codecOpenDecoder _ _ _ _ _ => true
  | _ => false

/-- Events the inner receive loop can emit. -/
def isDrainEvent : Event → Bool
  | .receiveFrame _ _ => true
  | .frameIsAudio _ _ => true
  | .frameNbSamples _ _ => true
  | .frameSampleRate _ _ => true
  | .frameFree _ => true
  | .msgFrameInfo _ _ _ => true
  | _ => false

/-- Events the outer decode loop can emit (note: `packetPts` is absent —
the demo never calls `tao_packet_pts`). -/
def isLoopEvent : Event → Bool
  | .readPacket _ _ => true
  | .msgEndOfFile => true
  | .msgReadError _ => true
  | .packetStreamIndex _ _ => true
  | .sendPacket _ _ _ => true
  | .packetFree _ => true
  | e => isDrainEvent e

/-- Events emitted by the stream-enumeration and setup/teardown code. -/
def isMetaEvent : Event → Bool
  | .taoInit => true
  | .taoShutdown => true
  | .formatOpenInput _ => true
  | .formatClose => true
  | .getStreamCount _ => true
  | .getStreamMediaType _ _ => true
  | .getStreamCodecId _ _ => true
  | .codecCreateDecoder _ _ => true
  | .codecOpenDecoder _ _ _ _ _ => true
  | .codecClose => true
  | _ => false

/-- A receive outcome on which the C receive loop keeps looping (rather
than breaking): `TAO_OK` together with a non-NULL frame. -/
def continuesDrain (q : RecvOutcome) : Bool :=
  decide (q.ret = TAO_OK) && q.frame.isSome

/-- After any event that satisfies `f` (a release), no later event
satisfies `m` (a use): the exactly-once / no-use-after-free discipline. -/
def NoUseAfter (f m : Event → Bool) : List Event → Prop
  | [] => True
  | e :: rest =>
    (f e = true → ∀ e2 ∈ rest, m e2 = false) ∧ NoUseAfter f m rest

/-! ### Concrete sample data used to exercise the model -/

/-- A sample environment: a container with one video stream and one audio
stream, one off-stream packet, one matching packet that decodes to one
audio frame, then end of stream. -/
def envA : Env where
  openInputOk := true
  streams := [(TAO_MEDIA_TYPE_VIDEO, 7), ( TAO_MEDIA_TYPE_AUDIO, 42)]
  createDecoderOk := true
  openDecoderRet := TAO_OK
  reads := [⟨TAO_OK, some ⟨0, 0, 10⟩, TAO_OK⟩,
            ⟨TAO_OK, some ⟨1, 5, 20⟩, TAO_OK⟩,
            ⟨TAO_EOF, none, TAO_OK⟩]
  recvs := [⟨TAO_OK, some ⟨true, 1024, 44100⟩⟩,
            ⟨TAO_NEED_MORE_DATA, none⟩]

/-- A read outcome signalling end of stream. -/
def rEOF : ReadOutcome := ⟨TAO_EOF, none, TAO_OK⟩

/-- A read outcome signalling a read error. -/
def rErr : ReadOutcome := ⟨TAO_ERROR, none, TAO_OK⟩

/-- A read outcome returning `TAO_OK` but a NULL packet. -/
def rNullOk : ReadOutcome := ⟨TAO_OK, none, TAO_OK⟩

/-- A successful read of a stream-0 packet whose submission succeeds. -/
def rGood : ReadOutcome := ⟨TAO_OK, some ⟨0, 0, 4⟩, TAO_OK⟩

/-- A successful read of a stream-0 packet whose submission fails. -/
def rBadSend : ReadOutcome := ⟨TAO_OK, some ⟨0, 0, 4⟩, TAO_ERROR⟩

/-- A receive outcome signalling backpressure (no frame buffered). -/
def qStop : RecvOutcome := ⟨TAO_NEED_MORE_DATA, none⟩

/-- A sample packet on stream 0. -/
def pktZero : Packet := ⟨0, 0, 4⟩

/-! ### Event classification lemmas -/

lemma drain_event_props (e : Event) (h : isDrainEvent e = true) :
    pktIdOf e = none ∧ isReadPacketEv e = false ∧ isSendPacketEv e = false ∧
      isPacketPtsEv e = false ∧ isMetaEvent e = false := by
  cases e <;> simp_all [isDrainEvent, pktIdOf, isReadPacketEv, isSendPacketEv,
    isPacketPtsEv, isMetaEvent]

lemma loop_event_props (e : Event) (h : isLoopEvent e = true) :
    isInitEv e = false ∧ isShutdownEv e = false ∧ isFormatCloseEv e = false ∧
      isCodecCloseEv e = false ∧ isCodecOpenEv e = false ∧
      isPacketPtsEv e = false := by
  cases e <;> simp_all [isLoopEvent, isDrainEvent, isInitEv, isShutdownEv,
    isFormatCloseEv, isCodecCloseEv, isCodecOpenEv, isPacketPtsEv]

lemma meta_event_props (e : Event) (h : isMetaEvent e = true) :
    pktIdOf e = none ∧ frmIdOf e = none ∧ isPacketPtsEv e = false ∧
      isSendPacketEv e = false ∧ isReadPacketEv e = false := by
  cases e <;> simp_all [isMetaEvent, pktIdOf, frmIdOf, isPacketPtsEv,
    isSendPacketEv, isReadPacketEv]

lemma streamInfo_meta : ∀ (s : List (Int × Int)) (i : Nat),
    ∀ e ∈ streamInfoEvents i s, isMetaEvent e = true := by
  intro s
  induction s with
  | nil => intro i e he; simp [streamInfoEvents] at he
  | cons x rest ih =>
    intro i e he
    simp only [streamInfoEvents, List.mem_cons] at he
    rcases he with rfl | he
    · rfl
    rcases he with rfl | he
    · rfl
    · exact ih (i + 1) e he

lemma not_mention_pkt_of_pktIdOf_none {q : Nat} {e : Event}
    (h : pktIdOf e = none) : mentionsPacket q e = false := by
  simp [mentionsPacket, h]

lemma not_obtains_pkt_of_pktIdOf_none {q : Nat} {e : Event}
    (h : pktIdOf e = none) : obtainsPacket q e = false := by
  cases e <;> simp_all [pktIdOf, obtainsPacket]

lemma not_frees_pkt_of_pktIdOf_none {q : Nat} {e : Event}
    (h : pktIdOf e = none) : freesPacket q e = false := by
  cases e <;> simp_all [pktIdOf, freesPacket]

lemma not_mention_frm_of_frmIdOf_none {g : Nat} {e : Event}
    (h : frmIdOf e = none) : mentionsFrame g e = false := by
  simp [mentionsFrame, h]

lemma not_obtains_frm_of_frmIdOf_none {g : Nat} {e : Event}
    (h : frmIdOf e = none) : obtainsFrame g e = false := by
  cases e <;> simp_all [frmIdOf, obtainsFrame]

lemma not_frees_frm_of_frmIdOf_none {g : Nat} {e : Event}
    (h : frmIdOf e = none) : freesFrame g e = false := by
  cases e <;> simp_all [frmIdOf, freesFrame]

lemma obtains_pkt_mentions {q : Nat} {e : Event}
    (h : obtainsPacket q e = true) : pktIdOf e = some q := by
  cases e <;> simp_all [obtainsPacket, pktIdOf]

lemma frees_pkt_mentions {q : Nat} {e : Event}
    (h : freesPacket q e = true) : pktIdOf e = some q := by
  cases e <;> simp_all [freesPacket, pktIdOf]

lemma obtains_frm_mentions {g : Nat} {e : Event}
    (h : obtainsFrame g e = true) : frmIdOf e = some g := by
  cases e <;> simp_all [obtainsFrame, frmIdOf]

lemma frees_frm_mentions {g : Nat} {e : Event}
    (h : freesFrame g e = true) : frmIdOf e = some g := by
  cases e <;> simp_all [freesFrame, frmIdOf]

/-! ### NoUseAfter combinators -/

lemma NoUseAfter_nil (f m : Event → Bool) : NoUseAfter f m [] := trivial

lemma NoUseAfter_of_not_mention {f m : Event → Bool} :
    ∀ {l : List Event}, (∀ e ∈ l, m e = false) → NoUseAfter f m l := by
  intro l
  induction l with
  | nil => intro _; trivial
  | cons e rest ih =>
    intro h
    exact ⟨fun _ e2 he2 => h e2 (List.mem_cons_of_mem _ he2),
      ih fun e2 he2 => h e2 (List.mem_cons_of_mem _ he2)⟩

lemma NoUseAfter_of_not_free {f m : Event → Bool} :
    ∀ {l : List Event}, (∀ e ∈ l, f e = false) → NoUseAfter f m l := by
  intro l
  induction l with
  | nil => intro _; trivial
  | cons e rest ih =>
    intro h
    refine ⟨fun hf => ?_, ih fun e2 he2 => h e2 (List.mem_cons_of_mem _ he2)⟩
    rw [h e (List.mem_cons_self _ _)] at hf
    cases hf

lemma NoUseAfter_append {f m : Event → Bool} :
    ∀ {l1 l2 : List Event}, NoUseAfter f m l1 → NoUseAfter f m l2 →
      (∀ e ∈ l1, f e = true → ∀ e2 ∈ l2, m e2 = false) →
      NoUseAfter f m (l1 ++ l2) := by
  intro l1
  induction l1 with
  | nil => intro l2 _ h2 _; simpa using h2
  | cons e rest ih =>
    intro l2 h1 h2 h3
    refine ⟨fun hf e2 he2 => ?_, ih h1.2 h2
      fun e2 he2 => h3 e2 (List.mem_cons_of_mem _ he2)⟩
    rcases List.mem_append.1 he2 with h | h
    · exact h1.1 hf e2 h
    · exact h3 e (List.mem_cons_self _ _) hf e2 h

lemma isLoopEvent_of_isDrainEvent {e : Event} (h : isDrainEvent e = true) :
    isLoopEvent e = true := by
  cases e <;> simp_all [isDrainEvent, isLoopEvent]

lemma countP_zero_of_all {p : Event → Bool} {l : List Event}
    (h : ∀ e ∈ l, p e = false) : l.countP p = 0 :=
  List.countP_eq_zero.2 fun a ha => by simp [h a ha]

/-! ### Structure of the receive loop -/

lemma drain_cons_none {q : RecvOutcome} {qrest : List RecvOutcome}
    {fid : Nat} {fc : Int} (hq : q.frame = none) :
    drainLoop (q :: qrest) fid fc =
      ⟨[Event.receiveFrame q.ret none], qrest, fid, fc⟩ := by
  simp [drainLoop, hq]

lemma drain_cons_stop1 {q : RecvOutcome} {qrest : List RecvOutcome}
    {fid : Nat} {fc : Int} {f : Frame} (hq : q.frame = some f)
    (h1 : q.ret = TAO_NEED_MORE_DATA ∨ q.ret = TAO_EOF) :
    drainLoop (q :: qrest) fid fc =
      ⟨[Event.receiveFrame q.ret (some fid)], qrest, fid + 1, fc⟩ := by
  simp only [drainLoop, hq]
  rw [if_pos h1]

lemma drain_cons_stop2 {q : RecvOutcome} {qrest : List RecvOutcome}
    {fid : Nat} {fc : Int} {f : Frame} (hq : q.frame = some f)
    (h1 : ¬(q.ret = TAO_NEED_MORE_DATA ∨ q.ret = TAO_EOF))
    (h2 : q.ret ≠ TAO_OK) :
    drainLoop (q :: qrest) fid fc =
      ⟨[Event.receiveFrame q.ret (some fid)], qrest, fid + 1, fc⟩ := by
  simp only [drainLoop, hq]
  rw [if_neg h1, if_pos h2]

lemma drain_cons_audio {q : RecvOutcome} {qrest : List RecvOutcome}
    {fid : Nat} {fc : Int} {f : Frame} (hq : q.frame = some f)
    (h2 : q.ret = TAO_OK) (h3 : f.isAudio = true) :
    drainLoop (q :: qrest) fid fc =
      ⟨Event.receiveFrame q.ret (some fid) ::
         Event.frameIsAudio fid f.isAudio ::
         Event.frameNbSamples fid f.nbSamples ::
         Event.frameSampleRate fid f.sampleRate ::
         ((if fc + 1 ≤ 5 then
             [Event.msgFrameInfo (fc + 1) f.nbSamples f.sampleRate]
           else []) ++
          (Event.frameFree fid :: (drainLoop qrest (fid + 1) (fc + 1)).events)),
       (drainLoop qrest (fid + 1) (fc + 1)).remaining,
       (drainLoop qrest (fid + 1) (fc + 1)).nextFid,
       (drainLoop qrest (fid + 1) (fc + 1)).frameCount⟩ := by
  have h1 : ¬(q.ret = TAO_NEED_MORE_DATA ∨ q.ret = TAO_EOF) := by
    rw [h2]; decide
  simp only [drainLoop, hq]
  rw [if_neg h1, if_neg (by simp [h2]), if_pos h3]

lemma drain_cons_nonaudio {q : RecvOutcome} {qrest : List RecvOutcome}
    {fid : Nat} {fc : Int} {f : Frame} (hq : q.frame = some f)
    (h2 : q.ret = TAO_OK) (h3 : f.isAudio = false) :
    drainLoop (q :: qrest) fid fc =
      ⟨Event.receiveFrame q.ret (some fid) ::
         Event.frameIsAudio fid f.isAudio ::
         Event.frameFree fid :: (drainLoop qrest (fid + 1) fc).events,
       (drainLoop qrest (fid + 1) fc).remaining,
       (drainLoop qrest (fid + 1) fc).nextFid,
       (drainLoop qrest (fid + 1) fc).frameCount⟩ := by
  have h1 : ¬(q.ret = TAO_NEED_MORE_DATA ∨ q.ret = TAO_EOF) := by
    rw [h2]; decide
  simp only [drainLoop, hq]
  rw [if_neg h1, if_neg (by simp [h2]), if_neg (by simp [h3])]

lemma drain_nextFid_le : ∀ (recvs : List RecvOutcome) (fid : Nat) (fc : Int),
    fid ≤ (drainLoop recvs fid fc).nextFid := by
  intro recvs
  induction recvs with
  | nil => intro fid fc; exact Nat.le_refl fid
  | cons q qrest ih =>
    intro fid fc
    rcases hq : q.frame with _ | f
    · rw [drain_cons_none hq]
    · by_cases h1 : q.ret = TAO_NEED_MORE_DATA ∨ q.ret = TAO_EOF
      · rw [drain_cons_stop1 hq h1]; exact Nat.le_succ fid
      · by_cases h2 : q.ret = TAO_OK
        · cases h3 : f.isAudio
          · rw [drain_cons_nonaudio hq h2 h3]
            exact Nat.le_trans (Nat.le_succ fid) (ih (fid + 1) fc)
          · rw [drain_cons_audio hq h2 h3]
            exact Nat.le_trans (Nat.le_succ fid) (ih (fid + 1) (fc + 1))
        · rw [drain_cons_stop2 hq h1 h2]; exact Nat.le_succ fid

lemma drain_events_spec : ∀ (recvs : List RecvOutcome) (fid : Nat) (fc : Int),
    ∀ e ∈ (drainLoop recvs fid fc).events,
      isDrainEvent e = true ∧
      ∀ g, frmIdOf e = some g →
        fid ≤ g ∧ g < (drainLoop recvs fid fc).nextFid := by
  intro recvs
  induction recvs with
  | nil => intro fid fc e he; simp [drainLoop] at he
  | cons q qrest ih =>
    intro fid fc e he
    rcases hq : q.frame with _ | f
    · rw [drain_cons_none hq] at he ⊢
      simp only [List.mem_singleton] at he
      subst he
      exact ⟨rfl, by simp [frmIdOf]⟩
    · by_cases h1 : q.ret = TAO_NEED_MORE_DATA ∨ q.ret = TAO_EOF
      · rw [drain_cons_stop1 hq h1] at he ⊢
        dsimp only at he ⊢
        simp only [List.mem_singleton] at he
        subst he
        refine ⟨rfl, fun g hg => ?_⟩
        simp only [frmIdOf, Option.some.injEq] at hg
        omega
      · by_cases h2 : q.ret = TAO_OK
        · cases h3 : f.isAudio
          · rw [drain_cons_nonaudio hq h2 h3] at he ⊢
            dsimp only at he ⊢
            have hnext : fid + 1 ≤ (drainLoop qrest (fid + 1) fc).nextFid :=
              drain_nextFid_le qrest (fid + 1) fc
            simp only [List.mem_cons] at he
            rcases he with rfl | rfl | rfl | he
            · exact ⟨rfl, fun g hg => by
                simp only [frmIdOf, Option.some.injEq] at hg; omega⟩
            · exact ⟨rfl, fun g hg => by
                simp only [frmIdOf, Option.some.injEq] at hg; omega⟩
            · exact ⟨rfl, fun g hg => by
                simp only [frmIdOf, Option.some.injEq] at hg; omega⟩
            · have hr := ih (fid + 1) fc e he
              exact ⟨hr.1, fun g hg => by have := hr.2 g hg; omega⟩
          · rw [drain_cons_audio hq h2 h3] at he ⊢
            dsimp only at he ⊢
            have hnext : fid + 1 ≤ (drainLoop qrest (fid + 1) (fc + 1)).nextFid :=
              drain_nextFid_le qrest (fid + 1) (fc + 1)
            simp only [List.mem_cons, List.mem_append] at he
            rcases he with rfl | rfl | rfl | rfl | he | he
            · exact ⟨rfl, fun g hg => by
                simp only [frmIdOf, Option.some.injEq] at hg; omega⟩
            · exact ⟨rfl, fun g hg => by
                simp only [frmIdOf, Option.some.injEq] at hg; omega⟩
            · exact ⟨rfl, fun g hg => by
                simp only [frmIdOf, Option.some.injEq] at hg; omega⟩
            · exact ⟨rfl, fun g hg => by
                simp only [frmIdOf, Option.some.injEq] at hg; omega⟩
            · have he2 : e = Event.msgFrameInfo (fc + 1) f.nbSamples f.sampleRate := by
                by_cases h5 : fc + 1 ≤ 5 <;> simp [h5] at he
                exact he
              subst he2
              exact ⟨rfl, by simp [frmIdOf]⟩
            · rcases he with rfl | he
              · exact ⟨rfl, fun g hg => by
                  simp only [frmIdOf, Option.some.injEq] at hg; omega⟩
              · have hr := ih (fid + 1) (fc + 1) e he
                exact ⟨hr.1, fun g hg => by have := hr.2 g hg; omega⟩
        · rw [drain_cons_stop2 hq h1 h2] at he ⊢
          dsimp only at he ⊢
          simp only [List.mem_singleton] at he
          subst he
          refine ⟨rfl, fun g hg => ?_⟩
          simp only [frmIdOf, Option.some.injEq] at hg
          omega

lemma obtains_frm_false_of_not_mention {g : Nat} {e : Event}
    (h : mentionsFrame g e = false) : obtainsFrame g e = false := by
  cases hob : obtainsFrame g e
  · rfl
  · rw [mentionsFrame, obtains_frm_mentions hob] at h
    simp at h

lemma frees_frm_false_of_not_mention {g : Nat} {e : Event}
    (h : mentionsFrame g e = false) : freesFrame g e = false := by
  cases hfr : freesFrame g e
  · rfl
  · rw [mentionsFrame, frees_frm_mentions hfr] at h
    simp at h

lemma obtains_pkt_false_of_not_mention {q : Nat} {e : Event}
    (h : mentionsPacket q e = false) : obtainsPacket q e = false := by
  cases hob : obtainsPacket q e
  · rfl
  · rw [mentionsPacket, obtains_pkt_mentions hob] at h
    simp at h

lemma frees_pkt_false_of_not_mention {q : Nat} {e : Event}
    (h : mentionsPacket q e = false) : freesPacket q e = false := by
  cases hfr : freesPacket q e
  · rfl
  · rw [mentionsPacket, frees_pkt_mentions hfr] at h
    simp at h

lemma drain_no_mention_outside :
    ∀ (recvs : List RecvOutcome) (fid : Nat) (fc : Int) (g : Nat),
    (g < fid ∨ (drainLoop recvs fid fc).nextFid ≤ g) →
    ∀ e ∈ (drainLoop recvs fid fc).events, mentionsFrame g e = false := by
  intro recvs fid fc g hg e he
  cases hm : mentionsFrame g e
  · rfl
  · exfalso
    have hmm : frmIdOf e = some g := by
      have := hm
      rw [mentionsFrame] at this
      exact of_decide_eq_true this
    have hb := (drain_events_spec recvs fid fc e he).2 g hmm
    omega

lemma drain_remaining_eq : ∀ (recvs : List RecvOutcome) (fid : Nat) (fc : Int),
    (drainLoop recvs fid fc).remaining =
      (recvs.dropWhile continuesDrain).drop 1 := by
  intro recvs
  induction recvs with
  | nil => intro fid fc; simp [drainLoop]
  | cons q qrest ih =>
    intro fid fc
    rcases hq : q.frame with _ | f
    · have hc : continuesDrain q = false := by
        simp [continuesDrain, hq]
      rw [drain_cons_none hq]
      simp [List.dropWhile_cons, hc]
    · by_cases h1 : q.ret = TAO_NEED_MORE_DATA ∨ q.ret = TAO_EOF
      · have hc : continuesDrain q = false := by
          rcases h1 with h | h <;>
            simp [continuesDrain, h, TAO_NEED_MORE_DATA, TAO_EOF, TAO_OK]
        rw [drain_cons_stop1 hq h1]
        simp [List.dropWhile_cons, hc]
      · by_cases h2 : q.ret = TAO_OK
        · have hc : continuesDrain q = true := by
            simp [continuesDrain, h2, hq]
          cases h3 : f.isAudio
          · rw [drain_cons_nonaudio hq h2 h3]
            dsimp only
            rw [ih (fid + 1) fc]
            simp [List.dropWhile_cons, hc]
          · rw [drain_cons_audio hq h2 h3]
            dsimp only
            rw [ih (fid + 1) (fc + 1)]
            simp [List.dropWhile_cons, hc]
        · have hc : continuesDrain q = false := by
            simp [continuesDrain, h2]
          rw [drain_cons_stop2 hq h1 h2]
          simp [List.dropWhile_cons, hc]

lemma drain_counts_zero_outside
    (recvs : List RecvOutcome) (fid : Nat) (fc : Int) (g : Nat)
    (hg : g < fid ∨ (drainLoop recvs fid fc).nextFid ≤ g) :
    (drainLoop recvs fid fc).events.countP (obtainsFrame g) = 0 ∧
    (drainLoop recvs fid fc).events.countP (freesFrame g) = 0 := by
  have hm := drain_no_mention_outside recvs fid fc g hg
  exact ⟨countP_zero_of_all fun e he => obtains_frm_false_of_not_mention (hm e he),
    countP_zero_of_all fun e he => frees_frm_false_of_not_mention (hm e he)⟩

lemma drain_frame_discipline :
    ∀ (recvs : List RecvOutcome) (fid : Nat) (fc : Int) (g : Nat),
    ((drainLoop recvs fid fc).events.countP (obtainsFrame g) ≤ 1) ∧
    ((drainLoop recvs fid fc).events.countP (freesFrame g) =
      (drainLoop recvs fid fc).events.countP (obtainsFrame g)) ∧
    NoUseAfter (freesFrame g) (mentionsFrame g) (drainLoop recvs fid fc).events := by
  intro recvs
  induction recvs with
  | nil =>
    intro fid fc g
    refine ⟨?_, ?_, ?_⟩ <;> simp [drainLoop, NoUseAfter]
  | cons q qrest ih =>
    intro fid fc g
    rcases hq : q.frame with _ | f
    · rw [drain_cons_none hq]
      dsimp only
      refine ⟨?_, ?_, ?_⟩
      · simp [obtainsFrame]
      · simp [obtainsFrame, freesFrame]
      · exact ⟨fun hf => by simp [freesFrame] at hf, trivial⟩
    · by_cases h1 : q.ret = TAO_NEED_MORE_DATA ∨ q.ret = TAO_EOF
      · rw [drain_cons_stop1 hq h1]
        dsimp only
        have hno : obtainsFrame g (Event.receiveFrame q.ret (some fid)) = false := by
          rcases h1 with h | h <;>
            simp [obtainsFrame, h, TAO_NEED_MORE_DATA, TAO_EOF, TAO_OK]
        refine ⟨?_, ?_, ?_⟩
        · simp [hno]
        · simp [hno, freesFrame]
        · exact ⟨fun hf => by simp [freesFrame] at hf, trivial⟩
      · by_cases h2 : q.ret = TAO_OK
        · cases h3 : f.isAudio
          · -- non-audio frame: obtained, queried, freed
            rw [drain_cons_nonaudio hq h2 h3]
            dsimp only
            by_cases hgf : g = fid
            · subst hgf
              have hz := drain_counts_zero_outside qrest (g + 1) fc g
                (Or.inl (Nat.lt_succ_self g))
              have hmt := drain_no_mention_outside qrest (g + 1) fc g
                (Or.inl (Nat.lt_succ_self g))
              refine ⟨?_, ?_, ?_⟩
              · simp [List.countP_cons, obtainsFrame, freesFrame, h2, hz.1]
              · simp [List.countP_cons, obtainsFrame, freesFrame, h2, hz.1, hz.2]
              · refine ⟨fun hf => by simp [freesFrame] at hf,
                  fun hf => by simp [freesFrame] at hf,
                  fun _ e2 he2 => hmt e2 he2,
                  NoUseAfter_of_not_mention hmt⟩
            · have ht := ih (fid + 1) fc g
              refine ⟨?_, ?_, ?_⟩
              · simpa [List.countP_cons, obtainsFrame, freesFrame, h2,
                  hgf, Ne.symm hgf] using ht.1
              · simpa [List.countP_cons, obtainsFrame, freesFrame, h2,
                  hgf, Ne.symm hgf] using ht.2.1
              · refine ⟨fun hf => by simp [freesFrame] at hf,
                  fun hf => by simp [freesFrame] at hf,
                  fun hf => ?_, ht.2.2⟩
                rw [freesFrame] at hf
                exact absurd (of_decide_eq_true hf).symm hgf
          · -- audio frame: obtained, queried, possibly printed, freed
            rw [drain_cons_audio hq h2 h3]
            dsimp only
            by_cases hgf : g = fid
            · subst hgf
              have hz := drain_counts_zero_outside qrest (g + 1) (fc + 1) g
                (Or.inl (Nat.lt_succ_self g))
              have hmt := drain_no_mention_outside qrest (g + 1) (fc + 1) g
                (Or.inl (Nat.lt_succ_self g))
              by_cases h5 : fc + 1 ≤ 5
              · refine ⟨?_, ?_, ?_⟩
                · simp [List.countP_cons, List.countP_append, obtainsFrame,
                    freesFrame, h2, h5, hz.1]
                · simp [List.countP_cons, List.countP_append, obtainsFrame,
                    freesFrame, h2, h5, hz.1, hz.2]
                · simp only [h5, if_pos, List.cons_append, List.nil_append,
                    NoUseAfter]
                  refine ⟨fun hf => by simp [freesFrame] at hf,
                    fun hf => by simp [freesFrame] at hf,
                    fun hf => by simp [freesFrame] at hf,
                    fun hf => by simp [freesFrame] at hf,
                    fun hf => by simp [freesFrame] at hf,
                    fun _ e2 he2 => hmt e2 he2,
                    NoUseAfter_of_not_mention hmt⟩
              · refine ⟨?_, ?_, ?_⟩
                · simp [List.countP_cons, List.countP_append, obtainsFrame,
                    freesFrame, h2, h5, hz.1]
                · simp [List.countP_cons, List.countP_append, obtainsFrame,
                    freesFrame, h2, h5, hz.1, hz.2]
                · simp only [h5, if_neg, List.cons_append, List.nil_append,
                    NoUseAfter]
                  refine ⟨fun hf => by simp [freesFrame] at hf,
                    fun hf => by simp [freesFrame] at hf,
                    fun hf => by simp [freesFrame] at hf,
                    fun hf => by simp [freesFrame] at hf,
                    fun _ e2 he2 => hmt e2 he2,
                    NoUseAfter_of_not_mention hmt⟩
            · have ht := ih (fid + 1) (fc + 1) g
              by_cases h5 : fc + 1 ≤ 5
              · refine ⟨?_, ?_, ?_⟩
                · simpa [List.countP_cons, List.countP_append, obtainsFrame,
                    freesFrame, h2, h5, hgf, Ne.symm hgf] using ht.1
                · simpa [List.countP_cons, List.countP_append, obtainsFrame,
                    freesFrame, h2, h5, hgf, Ne.symm hgf] using ht.2.1
                · simp only [h5, if_pos, List.cons_append, List.nil_append,
                    NoUseAfter]
                  refine ⟨fun hf => by simp [freesFrame] at hf,
                    fun hf => by simp [freesFrame] at hf,
                    fun hf => by simp [freesFrame] at hf,
                    fun hf => by simp [freesFrame] at hf,
                    fun hf => by simp [freesFrame] at hf,
                    fun hf => ?_, ht.2.2⟩
                  rw [freesFrame] at hf
                  exact absurd (of_decide_eq_true hf).symm hgf
              · refine ⟨?_, ?_, ?_⟩
                · simpa [List.countP_cons, List.countP_append, obtainsFrame,
                    freesFrame, h2, h5, hgf, Ne.symm hgf] using ht.1
                · simpa [List.countP_cons, List.countP_append, obtainsFrame,
                    freesFrame, h2, h5, hgf, Ne.symm hgf] using ht.2.1
                · simp only [h5, if_neg, List.cons_append, List.nil_append,
                    NoUseAfter]
                  refine ⟨fun hf => by simp [freesFrame] at hf,
                    fun hf => by simp [freesFrame] at hf,
                    fun hf => by simp [freesFrame] at hf,
                    fun hf => by simp [freesFrame] at hf,
                    fun hf => ?_, ht.2.2⟩
                  rw [freesFrame] at hf
                  exact absurd (of_decide_eq_true hf).symm hgf
        · rw [drain_cons_stop2 hq h1 h2]
          dsimp only
          have hno : obtainsFrame g (Event.receiveFrame q.ret (some fid)) = false := by
            simp [obtainsFrame, h2]
          refine ⟨?_, ?_, ?_⟩
          · simp [hno]
          · simp [hno, freesFrame]
          · exact ⟨fun hf => by simp [freesFrame] at hf, trivial⟩

/-! ### Structure of the decode loop -/

lemma loop_cons_eof {a : Int} {r : ReadOutcome} {rest : List ReadOutcome}
    {recvs : List RecvOutcome} {pid fid : Nat} {fc : Int}
    (h : r.ret = TAO_EOF) :
    decodeLoop a (r :: rest) recvs pid fid fc =
      [Event.readPacket r.ret (if r.pkt.isSome then some pid else none),
       Event.msgEndOfFile] := by
  simp only [decodeLoop]
  rw [if_pos h]

lemma loop_cons_noPkt {a : Int} {r : ReadOutcome} {rest : List ReadOutcome}
    {recvs : List RecvOutcome} {pid fid : Nat} {fc : Int}
    (hEOF : r.ret ≠ TAO_EOF) (hp : r.pkt = none) :
    decodeLoop a (r :: rest) recvs pid fid fc =
      [Event.readPacket r.ret none, Event.msgReadError r.ret] := by
  simp only [decodeLoop, hp]
  rw [if_neg hEOF]

lemma loop_cons_badRet {a : Int} {r : ReadOutcome} {rest : List ReadOutcome}
    {recvs : List RecvOutcome} {pid fid : Nat} {fc : Int} {p : Packet}
    (hEOF : r.ret ≠ TAO_EOF) (hp : r.pkt = some p) (h2 : r.ret ≠ TAO_OK) :
    decodeLoop a (r :: rest) recvs pid fid fc =
      [Event.readPacket r.ret (some pid), Event.msgReadError r.ret] := by
  simp only [decodeLoop, hp]
  rw [if_neg hEOF, if_pos h2]

lemma loop_cons_skip {a : Int} {r : ReadOutcome} {rest : List ReadOutcome}
    {recvs : List RecvOutcome} {pid fid : Nat} {fc : Int} {p : Packet}
    (hp : r.pkt = some p) (h2 : r.ret = TAO_OK) (hs : p.streamIndex ≠ a) :
    decodeLoop a (r :: rest) recvs pid fid fc =
      Event.readPacket r.ret (some pid) ::
        Event.packetStreamIndex pid p.streamIndex ::
        Event.packetFree pid ::
        decodeLoop a rest recvs (pid + 1) fid fc := by
  have hEOF : r.ret ≠ TAO_EOF := by rw [h2]; decide
  simp only [decodeLoop, hp]
  rw [if_neg hEOF, if_neg (by simp [h2]), if_pos hs]

lemma loop_cons_sendFail {a : Int} {r : ReadOutcome} {rest : List ReadOutcome}
    {recvs : List RecvOutcome} {pid fid : Nat} {fc : Int} {p : Packet}
    (hp : r.pkt = some p) (h2 : r.ret = TAO_OK) (hs : p.streamIndex = a)
    (hf : r.sendRet ≠ TAO_OK) :
    decodeLoop a (r :: rest) recvs pid fid fc =
      Event.readPacket r.ret (some pid) ::
        Event.packetStreamIndex pid p.streamIndex ::
        Event.sendPacket pid p.streamIndex r.sendRet ::
        Event.packetFree pid ::
        decodeLoop a rest recvs (pid + 1) fid fc := by
  have hEOF : r.ret ≠ TAO_EOF := by rw [h2]; decide
  simp only [decodeLoop, hp]
  rw [if_neg hEOF, if_neg (by simp [h2]), if_neg (by simp [hs]), if_pos hf]

lemma loop_cons_sendOk {a : Int} {r : ReadOutcome} {rest : List ReadOutcome}
    {recvs : List RecvOutcome} {pid fid : Nat} {fc : Int} {p : Packet}
    (hp : r.pkt = some p) (h2 : r.ret = TAO_OK) (hs : p.streamIndex = a)
    (hok : r.sendRet = TAO_OK) :
    decodeLoop a (r :: rest) recvs pid fid fc =
      Event.readPacket r.ret (some pid) ::
        Event.packetStreamIndex pid p.streamIndex ::
        Event.sendPacket pid p.streamIndex r.sendRet ::
        Event.packetFree pid ::
        ((drainLoop recvs fid fc).events ++
         decodeLoop a rest (drainLoop recvs fid fc).remaining (pid + 1)
           (drainLoop recvs fid fc).nextFid (drainLoop recvs fid fc).frameCount) := by
  have hEOF : r.ret ≠ TAO_EOF := by rw [h2]; decide
  simp only [decodeLoop, hp]
  rw [if_neg hEOF, if_neg (by simp [h2]), if_neg (by simp [hs]),
    if_neg (by simp [hok])]

lemma loop_events_spec : ∀ (reads : List ReadOutcome) (a : Int)
    (recvs : List RecvOutcome) (pid fid : Nat) (fc : Int),
    ∀ e ∈ decodeLoop a reads recvs pid fid fc,
      isLoopEvent e = true ∧
      (∀ q, pktIdOf e = some q → pid ≤ q) ∧
      (∀ g, frmIdOf e = some g → fid ≤ g) := by
  intro reads
  induction reads with
  | nil => intro a recvs pid fid fc e he; simp [decodeLoop] at he
  | cons r rest ih =>
    intro a recvs pid fid fc e he
    by_cases hEOF : r.ret = TAO_EOF
    · rw [loop_cons_eof hEOF] at he
      simp only [List.mem_cons, List.mem_singleton] at he
      rcases he with rfl | rfl | h
      · refine ⟨rfl, fun q hq => ?_, fun g hg => by simp [frmIdOf] at hg⟩
        by_cases hps : r.pkt.isSome <;>
          simp [pktIdOf, hps] at hq
        omega
      · exact ⟨rfl, fun q hq => by simp [pktIdOf] at hq,
          fun g hg => by simp [frmIdOf] at hg⟩
      · cases h
    · rcases hp : r.pkt with _ | p
      · rw [loop_cons_noPkt hEOF hp] at he
        simp only [List.mem_cons, List.mem_singleton] at he
        rcases he with rfl | rfl | h
        · exact ⟨rfl, fun q hq => by simp [pktIdOf] at hq,
            fun g hg => by simp [frmIdOf] at hg⟩
        · exact ⟨rfl, fun q hq => by simp [pktIdOf] at hq,
            fun g hg => by simp [frmIdOf] at hg⟩
        · cases h
      · by_cases h2 : r.ret = TAO_OK
        · by_cases hs : p.streamIndex = a
          · by_cases hok : r.sendRet = TAO_OK
            · rw [loop_cons_sendOk hp h2 hs hok] at he
              simp only [List.mem_cons, List.mem_append] at he
              rcases he with rfl | rfl | rfl | rfl | he | he
              · exact ⟨rfl, fun q hq => by
                  simp only [pktIdOf, Option.some.injEq] at hq; omega,
                  fun g hg => by simp [frmIdOf] at hg⟩
              · exact ⟨rfl, fun q hq => by
                  simp only [pktIdOf, Option.some.injEq] at hq; omega,
                  fun g hg => by simp [frmIdOf] at hg⟩
              · exact ⟨rfl, fun q hq => by
                  simp only [pktIdOf, Option.some.injEq] at hq; omega,
                  fun g hg => by simp [frmIdOf] at hg⟩
              · exact ⟨rfl, fun q hq => by
                  simp only [pktIdOf, Option.some.injEq] at hq; omega,
                  fun g hg => by simp [frmIdOf] at hg⟩
              · have hd := drain_events_spec recvs fid fc e he
                refine ⟨isLoopEvent_of_isDrainEvent hd.1, fun q hq => ?_,
                  fun g hg => (hd.2 g hg).1⟩
                rw [(drain_event_props e hd.1).1] at hq
                cases hq
              · have hr := ih a (drainLoop recvs fid fc).remaining (pid + 1)
                  (drainLoop recvs fid fc).nextFid
                  (drainLoop recvs fid fc).frameCount e he
                have hn := drain_nextFid_le recvs fid fc
                exact ⟨hr.1, fun q hq => by have := hr.2.1 q hq; omega,
                  fun g hg => by have := hr.2.2 g hg; omega⟩
            · rw [loop_cons_sendFail hp h2 hs hok] at he
              simp only [List.mem_cons] at he
              rcases he with rfl | rfl | rfl | rfl | he
              · exact ⟨rfl, fun q hq => by
                  simp only [pktIdOf, Option.some.injEq] at hq; omega,
                  fun g hg => by simp [frmIdOf] at hg⟩
              · exact ⟨rfl, fun q hq => by
                  simp only [pktIdOf, Option.some.injEq] at hq; omega,
                  fun g hg => by simp [frmIdOf] at hg⟩
              · exact ⟨rfl, fun q hq => by
                  simp only [pktIdOf, Option.some.injEq] at hq; omega,
                  fun g hg => by simp [frmIdOf] at hg⟩
              · exact ⟨rfl, fun q hq => by
                  simp only [pktIdOf, Option.some.injEq] at hq; omega,
                  fun g hg => by simp [frmIdOf] at hg⟩
              · have hr := ih a recvs (pid + 1) fid fc e he
                exact ⟨hr.1, fun q hq => by have := hr.2.1 q hq; omega, hr.2.2⟩
          · rw [loop_cons_skip hp h2 hs] at he
            simp only [List.mem_cons] at he
            rcases he with rfl | rfl | rfl | he
            · exact ⟨rfl, fun q hq => by
                simp only [pktIdOf, Option.some.injEq] at hq; omega,
                fun g hg => by simp [frmIdOf] at hg⟩
            · exact ⟨rfl, fun q hq => by
                simp only [pktIdOf, Option.some.injEq] at hq; omega,
                fun g hg => by simp [frmIdOf] at hg⟩
            · exact ⟨rfl, fun q hq => by
                simp only [pktIdOf, Option.some.injEq] at hq; omega,
                fun g hg => by simp [frmIdOf] at hg⟩
            · have hr := ih a recvs (pid + 1) fid fc e he
              exact ⟨hr.1, fun q hq => by have := hr.2.1 q hq; omega, hr.2.2⟩
        · rw [loop_cons_badRet hEOF hp h2] at he
          simp only [List.mem_cons, List.mem_singleton] at he
          rcases he with rfl | rfl | h
          · exact ⟨rfl, fun q hq => by
              simp only [pktIdOf, Option.some.injEq] at hq; omega,
              fun g hg => by simp [frmIdOf] at hg⟩
          · exact ⟨rfl, fun q hq => by simp [pktIdOf] at hq,
              fun g hg => by simp [frmIdOf] at hg⟩
          · cases h

lemma loop_no_pkt_mention_below
    (reads : List ReadOutcome) (a : Int) (recvs : List RecvOutcome)
    (pid fid : Nat) (fc : Int) (q : Nat) (h : q < pid) :
    ∀ e ∈ decodeLoop a reads recvs pid fid fc, mentionsPacket q e = false := by
  intro e he
  cases hm : mentionsPacket q e
  · rfl
  · exfalso
    have hmm : pktIdOf e = some q := by
      have := hm
      rw [mentionsPacket] at this
      exact of_decide_eq_true this
    have := (loop_events_spec reads a recvs pid fid fc e he).2.1 q hmm
    omega

lemma loop_pkt_counts_zero_below
    (reads : List ReadOutcome) (a : Int) (recvs : List RecvOutcome)
    (pid fid : Nat) (fc : Int) (q : Nat) (h : q < pid) :
    (decodeLoop a reads recvs pid fid fc).countP (obtainsPacket q) = 0 ∧
    (decodeLoop a reads recvs pid fid fc).countP (freesPacket q) = 0 := by
  have hm := loop_no_pkt_mention_below reads a recvs pid fid fc q h
  exact ⟨countP_zero_of_all fun e he => obtains_pkt_false_of_not_mention (hm e he),
    countP_zero_of_all fun e he => frees_pkt_false_of_not_mention (hm e he)⟩

lemma drain_no_pkt_mention {recvs : List RecvOutcome} {fid : Nat} {fc : Int}
    {q : Nat} : ∀ e ∈ (drainLoop recvs fid fc).events,
      mentionsPacket q e = false := by
  intro e he
  exact not_mention_pkt_of_pktIdOf_none
    (drain_event_props e (drain_events_spec recvs fid fc e he).1).1

lemma loop_packet_discipline :
    ∀ (reads : List ReadOutcome) (a : Int) (recvs : List RecvOutcome)
      (pid fid : Nat) (fc : Int) (q : Nat),
    ((decodeLoop a reads recvs pid fid fc).countP (obtainsPacket q) ≤ 1) ∧
    ((decodeLoop a reads recvs pid fid fc).countP (freesPacket q) =
      (decodeLoop a reads recvs pid fid fc).countP (obtainsPacket q)) ∧
    NoUseAfter (freesPacket q) (mentionsPacket q)
      (decodeLoop a reads recvs pid fid fc) := by
  intro reads
  induction reads with
  | nil =>
    intro a recvs pid fid fc q
    refine ⟨?_, ?_, ?_⟩ <;> simp [decodeLoop, NoUseAfter]
  | cons r rest ih =>
    intro a recvs pid fid fc q
    by_cases hEOF : r.ret = TAO_EOF
    · rw [loop_cons_eof hEOF]
      refine ⟨?_, ?_, ?_⟩
      · simp [List.countP_cons, obtainsPacket, hEOF, TAO_EOF, TAO_OK]
      · simp [List.countP_cons, obtainsPacket, freesPacket, hEOF, TAO_EOF,
          TAO_OK]
      · exact ⟨fun hf => by simp [freesPacket] at hf,
          fun hf => by simp [freesPacket] at hf, trivial⟩
    · rcases hp : r.pkt with _ | p
      · rw [loop_cons_noPkt hEOF hp]
        refine ⟨?_, ?_, ?_⟩
        · simp [obtainsPacket]
        · simp [obtainsPacket, freesPacket]
        · exact ⟨fun hf => by simp [freesPacket] at hf,
            fun hf => by simp [freesPacket] at hf, trivial⟩
      · by_cases h2 : r.ret = TAO_OK
        · by_cases hs : p.streamIndex = a
          · by_cases hok : r.sendRet = TAO_OK
            · rw [loop_cons_sendOk hp h2 hs hok]
              by_cases hgq : q = pid
              · subst hgq
                have hz := loop_pkt_counts_zero_below rest a
                  (drainLoop recvs fid fc).remaining (q + 1)
                  (drainLoop recvs fid fc).nextFid
                  (drainLoop recvs fid fc).frameCount q (Nat.lt_succ_self q)
                have hmt := loop_no_pkt_mention_below rest a
                  (drainLoop recvs fid fc).remaining (q + 1)
                  (drainLoop recvs fid fc).nextFid
                  (drainLoop recvs fid fc).frameCount q (Nat.lt_succ_self q)
                have hdm : ∀ e ∈ (drainLoop recvs fid fc).events,
                    mentionsPacket q e = false := drain_no_pkt_mention
                have hdz1 : (drainLoop recvs fid fc).events.countP
                    (obtainsPacket q) = 0 :=
                  countP_zero_of_all fun e he =>
                    obtains_pkt_false_of_not_mention (hdm e he)
                have hdz2 : (drainLoop recvs fid fc).events.countP
                    (freesPacket q) = 0 :=
                  countP_zero_of_all fun e he =>
                    frees_pkt_false_of_not_mention (hdm e he)
                refine ⟨?_, ?_, ?_⟩
                · simp [List.countP_cons, List.countP_append, obtainsPacket,
                    freesPacket, h2, hz.1, hdz1]
                · simp [List.countP_cons, List.countP_append, obtainsPacket,
                    freesPacket, h2, hz.1, hz.2, hdz1, hdz2]
                · refine ⟨fun hf => by simp [freesPacket] at hf,
                    fun hf => by simp [freesPacket] at hf,
                    fun hf => by simp [freesPacket] at hf,
                    fun _ e2 he2 => ?_, ?_⟩
                  · rcases List.mem_append.1 he2 with h | h
                    · exact hdm e2 h
                    · exact hmt e2 h
                  · refine NoUseAfter_append (NoUseAfter_of_not_free
                      fun e he => frees_pkt_false_of_not_mention (hdm e he))
                      (NoUseAfter_of_not_mention hmt) ?_
                    intro e he hf
                    rw [frees_pkt_false_of_not_mention (hdm e he)] at hf
                    cases hf
              · have ht := ih a (drainLoop recvs fid fc).remaining (pid + 1)
                  (drainLoop recvs fid fc).nextFid
                  (drainLoop recvs fid fc).frameCount q
                have hdm : ∀ e ∈ (drainLoop recvs fid fc).events,
                    mentionsPacket q e = false := drain_no_pkt_mention
                have hdz1 : (drainLoop recvs fid fc).events.countP
                    (obtainsPacket q) = 0 :=
                  countP_zero_of_all fun e he =>
                    obtains_pkt_false_of_not_mention (hdm e he)
                have hdz2 : (drainLoop recvs fid fc).events.countP
                    (freesPacket q) = 0 :=
                  countP_zero_of_all fun e he =>
                    frees_pkt_false_of_not_mention (hdm e he)
                refine ⟨?_, ?_, ?_⟩
                · simpa [List.countP_cons, List.countP_append, obtainsPacket,
                    freesPacket, h2, hgq, Ne.symm hgq, hdz1, hdz2] using ht.1
                · simpa [List.countP_cons, List.countP_append, obtainsPacket,
                    freesPacket, h2, hgq, Ne.symm hgq, hdz1, hdz2] using ht.2.1
                · refine ⟨fun hf => by simp [freesPacket] at hf,
                    fun hf => by simp [freesPacket] at hf,
                    fun hf => by simp [freesPacket] at hf,
                    fun hf => ?_, ?_⟩
                  · rw [freesPacket] at hf
                    exact absurd (of_decide_eq_true hf).symm hgq
                  · refine NoUseAfter_append (NoUseAfter_of_not_free
                      fun e he => frees_pkt_false_of_not_mention (hdm e he))
                      ht.2.2 ?_
                    intro e he hf
                    rw [frees_pkt_false_of_not_mention (hdm e he)] at hf
                    cases hf
            · rw [loop_cons_sendFail hp h2 hs hok]
              by_cases hgq : q = pid
              · subst hgq
                have hz := loop_pkt_counts_zero_below rest a recvs (q + 1)
                  fid fc q (Nat.lt_succ_self q)
                have hmt := loop_no_pkt_mention_below rest a recvs (q + 1)
                  fid fc q (Nat.lt_succ_self q)
                refine ⟨?_, ?_, ?_⟩
                · simp [List.countP_cons, obtainsPacket, freesPacket, h2, hz.1]
                · simp [List.countP_cons, obtainsPacket, freesPacket, h2,
                    hz.1, hz.2]
                · exact ⟨fun hf => by simp [freesPacket] at hf,
                    fun hf => by simp [freesPacket] at hf,
                    fun hf => by simp [freesPacket] at hf,
                    fun _ e2 he2 => hmt e2 he2,
                    NoUseAfter_of_not_mention hmt⟩
              · have ht := ih a recvs (pid + 1) fid fc q
                refine ⟨?_, ?_, ?_⟩
                · simpa [List.countP_cons, obtainsPacket, freesPacket, h2,
                    hgq, Ne.symm hgq] using ht.1
                · simpa [List.countP_cons, obtainsPacket, freesPacket, h2,
                    hgq, Ne.symm hgq] using ht.2.1
                · refine ⟨fun hf => by simp [freesPacket] at hf,
                    fun hf => by simp [freesPacket] at hf,
                    fun hf => by simp [freesPacket] at hf,
                    fun hf => ?_, ht.2.2⟩
                  rw [freesPacket] at hf
                  exact absurd (of_decide_eq_true hf).symm hgq
          · rw [loop_cons_skip hp h2 hs]
            by_cases hgq : q = pid
            · subst hgq
              have hz := loop_pkt_counts_zero_below rest a recvs (q + 1)
                fid fc q (Nat.lt_succ_self q)
              have hmt := loop_no_pkt_mention_below rest a recvs (q + 1)
                fid fc q (Nat.lt_succ_self q)
              refine ⟨?_, ?_, ?_⟩
              · simp [List.countP_cons, obtainsPacket, freesPacket, h2, hz.1]
              · simp [List.countP_cons, obtainsPacket, freesPacket, h2,
                  hz.1, hz.2]
              · exact ⟨fun hf => by simp [freesPacket] at hf,
                  fun hf => by simp [freesPacket] at hf,
                  fun _ e2 he2 => hmt e2 he2,
                  NoUseAfter_of_not_mention hmt⟩
            · have ht := ih a recvs (pid + 1) fid fc q
              refine ⟨?_, ?_, ?_⟩
              · simpa [List.countP_cons, obtainsPacket, freesPacket, h2,
                  hgq, Ne.symm hgq] using ht.1
              · simpa [List.countP_cons, obtainsPacket, freesPacket, h2,
                  hgq, Ne.symm hgq] using ht.2.1
              · refine ⟨fun hf => by simp [freesPacket] at hf,
                  fun hf => by simp [freesPacket] at hf,
                  fun hf => ?_, ht.2.2⟩
                rw [freesPacket] at hf
                exact absurd (of_decide_eq_true hf).symm hgq
        · rw [loop_cons_badRet hEOF hp h2]
          refine ⟨?_, ?_, ?_⟩
          · simp [obtainsPacket, h2]
          · simp [obtainsPacket, freesPacket, h2]
          · exact ⟨fun hf => by simp [freesPacket] at hf,
              fun hf => by simp [freesPacket] at hf, trivial⟩

lemma loop_no_frm_mention_below
    (reads : List ReadOutcome) (a : Int) (recvs : List RecvOutcome)
    (pid fid : Nat) (fc : Int) (g : Nat) (h : g < fid) :
    ∀ e ∈ decodeLoop a reads recvs pid fid fc, mentionsFrame g e = false := by
  intro e he
  cases hm : mentionsFrame g e
  · rfl
  · exfalso
    have hmm : frmIdOf e = some g := by
      have := hm
      rw [mentionsFrame] at this
      exact of_decide_eq_true this
    have := (loop_events_spec reads a recvs pid fid fc e he).2.2 g hmm
    omega

lemma loop_frm_counts_zero_below
    (reads : List ReadOutcome) (a : Int) (recvs : List RecvOutcome)
    (pid fid : Nat) (fc : Int) (g : Nat) (h : g < fid) :
    (decodeLoop a reads recvs pid fid fc).countP (obtainsFrame g) = 0 ∧
    (decodeLoop a reads recvs pid fid fc).countP (freesFrame g) = 0 := by
  have hm := loop_no_frm_mention_below reads a recvs pid fid fc g h
  exact ⟨countP_zero_of_all fun e he => obtains_frm_false_of_not_mention (hm e he),
    countP_zero_of_all fun e he => frees_frm_false_of_not_mention (hm e he)⟩

lemma loop_frame_discipline :
    ∀ (reads : List ReadOutcome) (a : Int) (recvs : List RecvOutcome)
      (pid fid : Nat) (fc : Int) (g : Nat),
    ((decodeLoop a reads recvs pid fid fc).countP (obtainsFrame g) ≤ 1) ∧
    ((decodeLoop a reads recvs pid fid fc).countP (freesFrame g) =
      (decodeLoop a reads recvs pid fid fc).countP (obtainsFrame g)) ∧
    NoUseAfter (freesFrame g) (mentionsFrame g)
      (decodeLoop a reads recvs pid fid fc) := by
  intro reads
  induction reads with
  | nil =>
    intro a recvs pid fid fc g
    refine ⟨?_, ?_, ?_⟩ <;> simp [decodeLoop, NoUseAfter]
  | cons r rest ih =>
    intro a recvs pid fid fc g
    by_cases hEOF : r.ret = TAO_EOF
    · rw [loop_cons_eof hEOF]
      refine ⟨?_, ?_, ?_⟩
      · simp [List.countP_cons, obtainsFrame]
      · simp [List.countP_cons, obtainsFrame, freesFrame]
      · exact ⟨fun hf => by simp [freesFrame] at hf,
          fun hf => by simp [freesFrame] at hf, trivial⟩
    · rcases hp : r.pkt with _ | p
      · rw [loop_cons_noPkt hEOF hp]
        refine ⟨?_, ?_, ?_⟩
        · simp [List.countP_cons, obtainsFrame]
        · simp [List.countP_cons, obtainsFrame, freesFrame]
        · exact ⟨fun hf => by simp [freesFrame] at hf,
            fun hf => by simp [freesFrame] at hf, trivial⟩
      · by_cases h2 : r.ret = TAO_OK
        · by_cases hs : p.streamIndex = a
          · by_cases hok : r.sendRet = TAO_OK
            · rw [loop_cons_sendOk hp h2 hs hok]
              by_cases hgn : g < (drainLoop recvs fid fc).nextFid
              · have hz := loop_frm_counts_zero_below rest a
                  (drainLoop recvs fid fc).remaining (pid + 1)
                  (drainLoop recvs fid fc).nextFid
                  (drainLoop recvs fid fc).frameCount g hgn
                have hmt := loop_no_frm_mention_below rest a
                  (drainLoop recvs fid fc).remaining (pid + 1)
                  (drainLoop recvs fid fc).nextFid
                  (drainLoop recvs fid fc).frameCount g hgn
                have hd := drain_frame_discipline recvs fid fc g
                refine ⟨?_, ?_, ?_⟩
                · simpa [List.countP_cons, List.countP_append, obtainsFrame,
                    freesFrame, hz.1] using hd.1
                · simpa [List.countP_cons, List.countP_append, obtainsFrame,
                    freesFrame, hz.1, hz.2] using hd.2.1
                · refine ⟨fun hf => by simp [freesFrame] at hf,
                    fun hf => by simp [freesFrame] at hf,
                    fun hf => by simp [freesFrame] at hf,
                    fun hf => by simp [freesFrame] at hf,
                    NoUseAfter_append hd.2.2
                      (NoUseAfter_of_not_mention hmt)
                      fun e he hf e2 he2 => hmt e2 he2⟩
              · have hout : g < fid ∨ (drainLoop recvs fid fc).nextFid ≤ g :=
                  Or.inr (Nat.le_of_not_lt hgn)
                have hdm := drain_no_mention_outside recvs fid fc g hout
                have hdz := drain_counts_zero_outside recvs fid fc g hout
                have ht := ih a (drainLoop recvs fid fc).remaining (pid + 1)
                  (drainLoop recvs fid fc).nextFid
                  (drainLoop recvs fid fc).frameCount g
                refine ⟨?_, ?_, ?_⟩
                · simpa [List.countP_cons, List.countP_append, obtainsFrame,
                    freesFrame, hdz.1] using ht.1
                · simpa [List.countP_cons, List.countP_append, obtainsFrame,
                    freesFrame, hdz.1, hdz.2] using ht.2.1
                · refine ⟨fun hf => by simp [freesFrame] at hf,
                    fun hf => by simp [freesFrame] at hf,
                    fun hf => by simp [freesFrame] at hf,
                    fun hf => by simp [freesFrame] at hf,
                    NoUseAfter_append (NoUseAfter_of_not_free
                      fun e he => frees_frm_false_of_not_mention (hdm e he))
                      ht.2.2 ?_⟩
                  intro e he hf
                  rw [frees_frm_false_of_not_mention (hdm e he)] at hf
                  cases hf
            · rw [loop_cons_sendFail hp h2 hs hok]
              have ht := ih a recvs (pid + 1) fid fc g
              refine ⟨?_, ?_, ?_⟩
              · simpa [List.countP_cons, obtainsFrame, freesFrame] using ht.1
              · simpa [List.countP_cons, obtainsFrame, freesFrame] using ht.2.1
              · exact ⟨fun hf => by simp [freesFrame] at hf,
                  fun hf => by simp [freesFrame] at hf,
                  fun hf => by simp [freesFrame] at hf,
                  fun hf => by simp [freesFrame] at hf, ht.2.2⟩
          · rw [loop_cons_skip hp h2 hs]
            have ht := ih a recvs (pid + 1) fid fc g
            refine ⟨?_, ?_, ?_⟩
            · simpa [List.countP_cons, obtainsFrame, freesFrame] using ht.1
            · simpa [List.countP_cons, obtainsFrame, freesFrame] using ht.2.1
            · exact ⟨fun hf => by simp [freesFrame] at hf,
                fun hf => by simp [freesFrame] at hf,
                fun hf => by simp [freesFrame] at hf, ht.2.2⟩
        · rw [loop_cons_badRet hEOF hp h2]
          refine ⟨?_, ?_, ?_⟩
          · simp [List.countP_cons, obtainsFrame]
          · simp [List.countP_cons, obtainsFrame, freesFrame]
          · exact ⟨fun hf => by simp [freesFrame] at hf,
              fun hf => by simp [freesFrame] at hf, trivial⟩

lemma loop_send_stream_eq :
    ∀ (reads : List ReadOutcome) (a : Int) (recvs : List RecvOutcome)
      (pid fid : Nat) (fc : Int) (p2 : Nat) (si ret : Int),
    Event.sendPacket p2 si ret ∈ decodeLoop a reads recvs pid fid fc →
    si = a := by
  intro reads
  induction reads with
  | nil => intro a recvs pid fid fc p2 si ret he; simp [decodeLoop] at he
  | cons r rest ih =>
    intro a recvs pid fid fc p2 si ret he
    by_cases hEOF : r.ret = TAO_EOF
    · rw [loop_cons_eof hEOF] at he
      simp at he
    · rcases hp : r.pkt with _ | p
      · rw [loop_cons_noPkt hEOF hp] at he
        simp at he
      · by_cases h2 : r.ret = TAO_OK
        · by_cases hs : p.streamIndex = a
          · by_cases hok : r.sendRet = TAO_OK
            · rw [loop_cons_sendOk hp h2 hs hok] at he
              simp only [List.mem_cons, List.mem_append] at he
              rcases he with h | h | h | h | h | h
              · cases h
              · cases h
              · rw [← hs]; cases h; rfl
              · cases h
              · exfalso
                have := (drain_event_props _
                  (drain_events_spec recvs fid fc _ h).1).1
                simp [pktIdOf] at this
              · exact ih a (drainLoop recvs fid fc).remaining (pid + 1)
                  (drainLoop recvs fid fc).nextFid
                  (drainLoop recvs fid fc).frameCount p2 si ret h
            · rw [loop_cons_sendFail hp h2 hs hok] at he
              simp only [List.mem_cons] at he
              rcases he with h | h | h | h | h
              · cases h
              · cases h
              · rw [← hs]; cases h; rfl
              · cases h
              · exact ih a recvs (pid + 1) fid fc p2 si ret h
          · rw [loop_cons_skip hp h2 hs] at he
            simp only [List.mem_cons] at he
            rcases he with h | h | h | h
            · cases h
            · cases h
            · cases h
            · exact ih a recvs (pid + 1) fid fc p2 si ret h
        · rw [loop_cons_badRet hEOF hp h2] at he
          simp at he

/-! ### Decomposition of a whole run -/

lemma runMain_split (argc : Nat) (env : Env) :
    ∃ l1 lmid l2 : List Event,
      (runMain argc env).1 = l1 ++ (lmid ++ l2) ∧
      (∀ e ∈ l1, isMetaEvent e = true) ∧
      (∀ e ∈ l2, isMetaEvent e = true) ∧
      (lmid = [] ∨ ∃ ic : Nat × Int, findFirstAudio env.streams = some ic ∧
        lmid = decodeLoop (ic.1 : Int) env.reads env.recvs 0 0 0) := by
  by_cases h1 : argc < 2
  · exact ⟨[], [], [], by simp [runMain, h1], by simp, by simp, Or.inl rfl⟩
  · by_cases hOpen : env.openInputOk = false
    · refine ⟨[Event.taoInit, Event.formatOpenInput false, Event.taoShutdown],
        [], [], by simp [runMain, h1, hOpen], ?_, by simp, Or.inl rfl⟩
      intro e he; fin_cases he <;> rfl
    · rcases hfa : findFirstAudio env.streams with _ | ic
      · refine ⟨([Event.taoInit, Event.formatOpenInput true,
          Event.getStreamCount env.streams.length] ++
          streamInfoEvents 0 env.streams) ++
          [Event.formatClose, Event.taoShutdown], [], [], ?_, ?_,
          by simp, Or.inl rfl⟩
        · simp [runMain, h1, hOpen, hfa]
        · intro e he
          rcases List.mem_append.1 he with h | h
          · rcases List.mem_append.1 h with h | h
            · fin_cases h <;> rfl
            · exact streamInfo_meta _ _ e h
          · fin_cases h <;> rfl
      · by_cases hCr : env.createDecoderOk = false
        · refine ⟨([Event.taoInit, Event.formatOpenInput true,
            Event.getStreamCount env.streams.length] ++
            streamInfoEvents 0 env.streams) ++
            [Event.codecCreateDecoder ic.2 false, Event.formatClose,
             Event.taoShutdown], [], [], ?_, ?_, by simp, Or.inl rfl⟩
          · simp [runMain, h1, hOpen, hfa, hCr]
          · intro e he
            rcases List.mem_append.1 he with h | h
            · rcases List.mem_append.1 h with h | h
              · fin_cases h <;> rfl
              · exact streamInfo_meta _ _ e h
            · fin_cases h <;> rfl
        · by_cases hOd : env.openDecoderRet ≠ TAO_OK
          · refine ⟨([Event.taoInit, Event.formatOpenInput true,
              Event.getStreamCount env.streams.length] ++
              streamInfoEvents 0 env.streams) ++
              [Event.codecCreateDecoder ic.2 true,
               Event.codecOpenDecoder 44100 2 true 0 env.openDecoderRet,
               Event.codecClose, Event.formatClose, Event.taoShutdown],
              [], [], ?_, ?_, by simp, Or.inl rfl⟩
            · simp [runMain, h1, hOpen, hfa, hCr, hOd]
            · intro e he
              rcases List.mem_append.1 he with h | h
              · rcases List.mem_append.1 h with h | h
                · fin_cases h <;> rfl
                · exact streamInfo_meta _ _ e h
              · fin_cases h <;> rfl
          · refine ⟨([Event.taoInit, Event.formatOpenInput true,
              Event.getStreamCount env.streams.length] ++
              streamInfoEvents 0 env.streams) ++
              [Event.codecCreateDecoder ic.2 true,
               Event.codecOpenDecoder 44100 2 true 0 env.openDecoderRet],
              decodeLoop (ic.1 : Int) env.reads env.recvs 0 0 0,
              [Event.codecClose, Event.formatClose, Event.taoShutdown],
              ?_, ?_, ?_, Or.inr ⟨ic, rfl, rfl⟩⟩
            · simp [runMain, h1, hOpen, hfa, hCr, hOd, List.append_assoc]
            · intro e he
              rcases List.mem_append.1 he with h | h
              · rcases List.mem_append.1 h with h | h
                · fin_cases h <;> rfl
                · exact streamInfo_meta _ _ e h
              · fin_cases h <;> rfl
            · intro e he; fin_cases he <;> rfl

/-- Discipline facts for a trace consisting only of setup/teardown and
stream-metadata events: no packet or frame is mentioned at all. -/
lemma meta_discipline {l : List Event} (hl : ∀ e ∈ l, isMetaEvent e = true)
    (q g : Nat) :
    l.countP (obtainsPacket q) = 0 ∧ l.countP (freesPacket q) = 0 ∧
    l.countP (obtainsFrame g) = 0 ∧ l.countP (freesFrame g) = 0 ∧
    l.countP isPacketPtsEv = 0 ∧
    (∀ e ∈ l, mentionsPacket q e = false) ∧
    (∀ e ∈ l, mentionsFrame g e = false) := by
  have hp : ∀ e ∈ l, mentionsPacket q e = false := fun e he =>
    not_mention_pkt_of_pktIdOf_none (meta_event_props e (hl e he)).1
  have hf : ∀ e ∈ l, mentionsFrame g e = false := fun e he =>
    not_mention_frm_of_frmIdOf_none (meta_event_props e (hl e he)).2.1
  refine ⟨countP_zero_of_all fun e he =>
      obtains_pkt_false_of_not_mention (hp e he),
    countP_zero_of_all fun e he =>
      frees_pkt_false_of_not_mention (hp e he),
    countP_zero_of_all fun e he =>
      obtains_frm_false_of_not_mention (hf e he),
    countP_zero_of_all fun e he =>
      frees_frm_false_of_not_mention (hf e he),
    countP_zero_of_all fun e he => (meta_event_props e (hl e he)).2.2.1,
    hp, hf⟩

lemma discipline_sandwich {l1 lmid l2 : List Event} {fr me : Event → Bool}
    (h2 : ∀ e ∈ l2, me e = false)
    (hfr1 : ∀ e ∈ l1, fr e = false)
    (hmid : NoUseAfter fr me lmid) :
    NoUseAfter fr me (l1 ++ (lmid ++ l2)) := by
  refine NoUseAfter_append (NoUseAfter_of_not_free hfr1)
    (NoUseAfter_append hmid (NoUseAfter_of_not_mention h2)
      fun e he hf e2 he2 => h2 e2 he2)
    fun e he hf => ?_
  rw [hfr1 e he] at hf
  cases hf

/-! ### The claims -/

/-- C1: for every packet successfully obtained from `tao_format_read_packet`
(`TAO_OK` with a non-NULL packet), the demo frees it with `tao_packet_free`
exactly once on every control path — both on the stream-mismatch skip path
and after `tao_codec_send_packet` regardless of the send's result — and
never touches the packet again after freeing it.  Formally: in any run's
trace, a packet id is obtained at most once, the number of frees equals the
number of obtains (so obtained once implies freed exactly once, and never
freed otherwise), and after a free no event mentions that packet id. -/
theorem packet_freed_exactly_once (argc : Nat) (env : Env) (q : Nat) :
    ((runMain argc env).1.countP (obtainsPacket q) ≤ 1) ∧
    ((runMain argc env).1.countP (freesPacket q) =
      (runMain argc env).1.countP (obtainsPacket q)) ∧
    NoUseAfter (freesPacket q) (mentionsPacket q) (runMain argc env).1 := by
  obtain ⟨l1, lmid, l2, htr, hm1, hm2, hmid⟩ := runMain_split argc env
  have hd1 := meta_discipline hm1 q 0
  have hd2 := meta_discipline hm2 q 0
  have hmf :
      (lmid.countP (obtainsPacket q) ≤ 1) ∧
      (lmid.countP (freesPacket q) = lmid.countP (obtainsPacket q)) ∧
      NoUseAfter (freesPacket q) (mentionsPacket q) lmid := by
    rcases hmid with rfl | ⟨ic, hic, rfl⟩
    · exact ⟨by simp, by simp, trivial⟩
    · exact loop_packet_discipline env.reads (ic.1 : Int) env.recvs 0 0 0 q
  rw [htr]
  refine ⟨?_, ?_, ?_⟩
  · simp [List.countP_append, hd1.1, hd2.1, hd2.2.1, hmf.1]
  · simp [List.countP_append, hd1.1, hd1.2.1, hd2.1, hd2.2.1, hmf.2.1]
  · exact discipline_sandwich hd2.2.2.2.2.2.1
      (fun e he => frees_pkt_false_of_not_mention (hd1.2.2.2.2.2.1 e he))
      hmf.2.2

/-- C5: for every frame successfully obtained from
`tao_codec_receive_frame` (`TAO_OK` with a non-NULL frame), the demo frees
it with `tao_frame_free` exactly once in that drain-loop iteration, after
all accessor calls on it (`tao_frame_is_audio`, `tao_frame_nb_samples`,
`tao_frame_sample_rate`), and never uses it before obtaining or after
freeing.  Formally: a frame id is obtained at most once per run, frees
equal obtains, and after a free no event mentions that frame id (so all
accessor events on it precede the free). -/
theorem frame_freed_exactly_once (argc : Nat) (env : Env) (g : Nat) :
    ((runMain argc env).1.countP (obtainsFrame g) ≤ 1) ∧
    ((runMain argc env).1.countP (freesFrame g) =
      (runMain argc env).1.countP (obtainsFrame g)) ∧
    NoUseAfter (freesFrame g) (mentionsFrame g) (runMain argc env).1 := by
  obtain ⟨l1, lmid, l2, htr, hm1, hm2, hmid⟩ := runMain_split argc env
  have hd1 := meta_discipline hm1 0 g
  have hd2 := meta_discipline hm2 0 g
  have hmf :
      (lmid.countP (obtainsFrame g) ≤ 1) ∧
      (lmid.countP (freesFrame g) = lmid.countP (obtainsFrame g)) ∧
      NoUseAfter (freesFrame g) (mentionsFrame g) lmid := by
    rcases hmid with rfl | ⟨ic, hic, rfl⟩
    · exact ⟨by simp, by simp, trivial⟩
    · exact loop_frame_discipline env.reads (ic.1 : Int) env.recvs 0 0 0 g
  rw [htr]
  refine ⟨?_, ?_, ?_⟩
  · simp [List.countP_append, hd1.2.2.1, hd2.2.2.1, hd2.2.2.2.1, hmf.1]
  · simp [List.countP_append, hd1.2.2.1, hd1.2.2.2.1, hd2.2.2.1,
      hd2.2.2.2.1, hmf.2.1]
  · exact discipline_sandwich hd2.2.2.2.2.2.2
      (fun e he => frees_frm_false_of_not_mention (hd1.2.2.2.2.2.2 e he))
      hmf.2.2

/-- C8 counterexample: the claim asserts that in every execution
`tao_packet_pts` is invoked on packets.  In the concrete run below the demo
successfully reads packets (the count of obtained packets is positive), yet
the trace contains no `tao_packet_pts` call at all — decode_audio.c never
calls `tao_packet_pts` (it prints a literal dash for the PTS field). -/
theorem packet_pts_claim_counterexample :
    0 < (runMain 2 envA).1.countP (obtainsPacket 0) ∧
    (runMain 2 envA).1.countP isPacketPtsEv = 0 := by
  constructor <;> decide

/-- C8 (amended): `tao_packet_pts` is declared in the demo's API surface
but never invoked: in every execution the trace contains no
`tao_packet_pts` call, and no timestamp value is propagated to or printed
for any frame (the per-frame diagnostic prints a literal dash for PTS). -/
theorem packet_pts_never_invoked (argc : Nat) (env : Env) :
    (runMain argc env).1.countP isPacketPtsEv = 0 := by
  obtain ⟨l1, lmid, l2, htr, hm1, hm2, hmid⟩ := runMain_split argc env
  have hd1 := meta_discipline hm1 0 0
  have hd2 := meta_discipline hm2 0 0
  have hmf : lmid.countP isPacketPtsEv = 0 := by
    rcases hmid with rfl | ⟨ic, hic, rfl⟩
    · simp
    · refine countP_zero_of_all fun e he => ?_
      exact (loop_event_props e
        (loop_events_spec env.reads (ic.1 : Int) env.recvs 0 0 0 e he).1).2.2.2.2.2
  rw [htr]
  simp [List.countP_append, hd1.2.2.2.2.1, hd2.2.2.2.2.1, hmf]

/-- C2: `tao_format_read_packet` has three distinguishable outcomes, and
end of stream is not an error: on `TAO_EOF` the demo ends its read loop
normally (end-of-file message, no error message); on any other
non-`TAO_OK` return it ends with the read-error diagnostic; and a NULL
packet alongside `TAO_OK` is also treated as the error condition.  In each
case the trace shows exactly that final read and nothing further. -/
theorem read_outcome_taxonomy (a : Int) (r : ReadOutcome)
    (rest : List ReadOutcome) (recvs : List RecvOutcome) (pid fid : Nat)
    (fc : Int) :
    (r.ret = TAO_EOF →
      decodeLoop a (r :: rest) recvs pid fid fc =
        [Event.readPacket r.ret (if r.pkt.isSome then some pid else none),
         Event.msgEndOfFile]) ∧
    (r.ret ≠ TAO_OK → r.ret ≠ TAO_EOF →
      decodeLoop a (r :: rest) recvs pid fid fc =
        [Event.readPacket r.ret (if r.pkt.isSome then some pid else none),
         Event.msgReadError r.ret]) ∧
    (r.ret = TAO_OK → r.pkt = none →
      decodeLoop a (r :: rest) recvs pid fid fc =
        [Event.readPacket r.ret none, Event.msgReadError r.ret]) := by
  refine ⟨fun hEOF => loop_cons_eof hEOF, fun hOk hEOF => ?_, fun hOk hp => ?_⟩
  · rcases hp : r.pkt with _ | p
    · rw [loop_cons_noPkt hEOF hp]
      simp
    · rw [loop_cons_badRet hEOF hp hOk]
      simp
  · have hEOF : r.ret ≠ TAO_EOF := by rw [hOk]; decide
    exact loop_cons_noPkt hEOF hp

/-- Witness for C2: the three read outcomes on concrete inputs. -/
theorem read_outcome_taxonomy_witness :
    (decodeLoop 0 [rEOF] [] 0 0 0 =
      [Event.readPacket TAO_EOF none, Event.msgEndOfFile]) ∧
    (decodeLoop 0 [rErr] [] 0 0 0 =
      [Event.readPacket TAO_ERROR none, Event.msgReadError TAO_ERROR]) ∧
    (decodeLoop 0 [rNullOk] [] 0 0 0 =
      [Event.readPacket TAO_OK none, Event.msgReadError TAO_OK]) :=
  ⟨(read_outcome_taxonomy 0 rEOF [] [] 0 0 0).1 (by decide),
   (read_outcome_taxonomy 0 rErr [] [] 0 0 0).2.1 (by decide) (by decide),
   (read_outcome_taxonomy 0 rNullOk [] [] 0 0 0).2.2 (by decide) (by decide)⟩

/-- C3: the demo never submits a packet of another stream to the decoder:
every `tao_codec_send_packet` event in any run carries the stream index of
the stream selected by the first-audio-stream scan (mismatching packets are
freed and skipped without a send, per C1's free accounting). -/
theorem send_only_selected_stream (argc : Nat) (env : Env) (p2 : Nat)
    (si ret : Int)
    (h : Event.sendPacket p2 si ret ∈ (runMain argc env).1) :
    ∃ ic : Nat × Int, findFirstAudio env.streams = some ic ∧
      si = (ic.1 : Int) := by
  obtain ⟨l1, lmid, l2, htr, hm1, hm2, hmid⟩ := runMain_split argc env
  rw [htr] at h
  rcases List.mem_append.1 h with h | h
  · have := (meta_event_props _ (hm1 _ h)).2.2.2.1
    simp [isSendPacketEv] at this
  · rcases List.mem_append.1 h with h | h
    · rcases hmid with rfl | ⟨ic, hic, rfl⟩
      · simp at h
      · exact ⟨ic, hic,
          loop_send_stream_eq env.reads (ic.1 : Int) env.recvs 0 0 0
            p2 si ret h⟩
    · have := (meta_event_props _ (hm2 _ h)).2.2.2.1
      simp [isSendPacketEv] at this

/-- Witness for C3: in the sample run a send occurs, on stream index 1,
which is the selected (first audio) stream. -/
theorem send_only_selected_stream_witness :
    ∃ ic : Nat × Int, findFirstAudio envA.streams = some ic ∧
      (1 : Int) = (ic.1 : Int) :=
  send_only_selected_stream 2 envA 1 1 TAO_OK (by decide)

/-- C4: after a submission accepted by `tao_codec_send_packet` (`TAO_OK`),
the demo drains frames before reading the next packet: the trace continues
with the whole receive-loop block (which contains no
`tao_format_read_packet` call), the receive loop consumes receive outcomes
while they are `TAO_OK` with a non-NULL frame and stops with the first
outcome that is `TAO_NEED_MORE_DATA`, `TAO_EOF`, any other non-`TAO_OK`
status, or a NULL frame, and only after that block does the packet loop
resume. -/
theorem drain_after_accepted_send (a : Int) (r : ReadOutcome)
    (rest : List ReadOutcome) (recvs : List RecvOutcome) (pid fid : Nat)
    (fc : Int) (p : Packet)
    (hp : r.pkt = some p) (h2 : r.ret = TAO_OK) (hs : p.streamIndex = a)
    (hok : r.sendRet = TAO_OK) :
    (decodeLoop a (r :: rest) recvs pid fid fc =
      Event.readPacket r.ret (some pid) ::
        Event.packetStreamIndex pid p.streamIndex ::
        Event.sendPacket pid p.streamIndex r.sendRet ::
        Event.packetFree pid ::
        ((drainLoop recvs fid fc).events ++
         decodeLoop a rest (drainLoop recvs fid fc).remaining (pid + 1)
           (drainLoop recvs fid fc).nextFid
           (drainLoop recvs fid fc).frameCount)) ∧
    ((drainLoop recvs fid fc).remaining =
      (recvs.dropWhile continuesDrain).drop 1) ∧
    (∀ e ∈ (drainLoop recvs fid fc).events, isReadPacketEv e = false) := by
  refine ⟨loop_cons_sendOk hp h2 hs hok, drain_remaining_eq recvs fid fc,
    fun e he => ?_⟩
  exact (drain_event_props e (drain_events_spec recvs fid fc e he).1).2.1

/-- Witness for C4: a concrete accepted submission followed by a drain that
stops at the backpressure signal. -/
theorem drain_after_accepted_send_witness :
    decodeLoop 0 [rGood] [qStop] 0 0 0 =
      Event.readPacket rGood.ret (some 0) ::
        Event.packetStreamIndex 0 pktZero.streamIndex ::
        Event.sendPacket 0 pktZero.streamIndex rGood.sendRet ::
        Event.packetFree 0 ::
        ((drainLoop [qStop] 0 0).events ++
         decodeLoop 0 [] (drainLoop [qStop] 0 0).remaining 1
           (drainLoop [qStop] 0 0).nextFid
           (drainLoop [qStop] 0 0).frameCount) :=
  (drain_after_accepted_send 0 rGood [] [qStop] 0 0 0 pktZero
    (by decide) (by decide) (by decide) (by decide)).1

/-- C6 (spec-modelled Demuxer): `read_packet` signals `EndOfStream` exactly
when all packets have been delivered and never before — the k-th read
(0-based) returns the k-th stored packet with `TAO_OK` while packets
remain — and once `EndOfStream` has been returned every subsequent read
returns `EndOfStream` again. -/
theorem demuxer_eof_terminal (s : FormatState) (k : Nat) :
    ((fmtReadAt s k).1 = TAO_EOF ↔ s.remaining.length ≤ k) ∧
    (∀ h : k < s.remaining.length,
      fmtReadAt s k = (TAO_OK, some (s.remaining.get ⟨k, h⟩))) ∧
    ((fmtReadAt s k).1 = TAO_EOF → (fmtReadAt s (k + 1)).1 = TAO_EOF) := by
  induction k generalizing s with
  | zero =>
    obtain ⟨rem⟩ := s
    cases rem with
    | nil =>
      refine ⟨by simp [fmtReadAt, fmtRead], fun h => absurd h (by simp),
        fun _ => by simp [fmtReadAt, fmtRead]⟩
    | cons p rest =>
      refine ⟨by simp [fmtReadAt, fmtRead, TAO_OK, TAO_EOF], fun h => ?_,
        fun h => ?_⟩
      · simp [fmtReadAt, fmtRead]
      · exfalso
        simp [fmtReadAt, fmtRead, TAO_OK, TAO_EOF] at h
  | succ k ih =>
    obtain ⟨rem⟩ := s
    cases rem with
    | nil =>
      have h0 := ih ⟨[]⟩
      have hstep : fmtReadAt ⟨[]⟩ (k + 1) = fmtReadAt ⟨[]⟩ k := rfl
      refine ⟨?_, fun h => absurd h (by simp), fun h => ?_⟩
      · rw [hstep]
        constructor
        · intro _; simp
        · intro _
          exact h0.1.2 (by simp)
      · have hstep2 : fmtReadAt ⟨[]⟩ (k + 2) = fmtReadAt ⟨[]⟩ (k + 1) := rfl
        rw [hstep2, hstep]
        rw [hstep] at h
        exact h0.1.2 (by simp)
    | cons p rest =>
      have h0 := ih ⟨rest⟩
      have hstep : fmtReadAt ⟨p :: rest⟩ (k + 1) = fmtReadAt ⟨rest⟩ k := rfl
      refine ⟨?_, fun h => ?_, fun h => ?_⟩
      · rw [hstep, h0.1]
        simp only [List.length_cons]
        omega
      · have hk : k < rest.length := by
          simpa using Nat.lt_of_succ_lt_succ h
        rw [hstep, h0.2.1 hk]
        simp
      · have hstep2 : fmtReadAt ⟨p :: rest⟩ (k + 2) = fmtReadAt ⟨rest⟩ (k + 1) :=
          rfl
        rw [hstep2]
        rw [hstep] at h
        exact h0.2.2 h

/-- Witness for C6: a one-packet container delivers its packet on the first
read, signals end of stream on the second, and stays at end of stream. -/
theorem demuxer_eof_terminal_witness :
    fmtReadAt ⟨[pktZero]⟩ 0 = (TAO_OK, some pktZero) ∧
    (fmtReadAt ⟨[pktZero]⟩ 1).1 = TAO_EOF ∧
    (fmtReadAt ⟨[pktZero]⟩ 2).1 = TAO_EOF :=
  ⟨(demuxer_eof_terminal ⟨[pktZero]⟩ 0).2.1 (by decide),
   (demuxer_eof_terminal ⟨[pktZero]⟩ 1).1.2 (by decide),
   (demuxer_eof_terminal ⟨[pktZero]⟩ 1).2.2
     ((demuxer_eof_terminal ⟨[pktZero]⟩ 1).1.2 (by decide))⟩

/-- C7: a failed submission is local to that packet: when
`tao_codec_send_packet` returns non-`TAO_OK`, the demo frees the packet and
continues the loop on the remaining reads with the decoder context — the
continuation is exactly the decode loop on the rest of the input, with the
decoder's pending receive outcomes untouched, so subsequent packets are
still processed. -/
theorem failed_send_skips_and_continues (a : Int) (r : ReadOutcome)
    (rest : List ReadOutcome) (recvs : List RecvOutcome) (pid fid : Nat)
    (fc : Int) (p : Packet)
    (hp : r.pkt = some p) (h2 : r.ret = TAO_OK) (hs : p.streamIndex = a)
    (hf : r.sendRet ≠ TAO_OK) :
    decodeLoop a (r :: rest) recvs pid fid fc =
      Event.readPacket r.ret (some pid) ::
        Event.packetStreamIndex pid p.streamIndex ::
        Event.sendPacket pid p.streamIndex r.sendRet ::
        Event.packetFree pid ::
        decodeLoop a rest recvs (pid + 1) fid fc :=
  loop_cons_sendFail hp h2 hs hf

/-- Witness for C7: a rejected submission is followed by normal processing
of the next packet. -/
theorem failed_send_skips_and_continues_witness :
    decodeLoop 0 [rBadSend, rGood] [qStop] 0 0 0 =
      Event.readPacket rBadSend.ret (some 0) ::
        Event.packetStreamIndex 0 pktZero.streamIndex ::
        Event.sendPacket 0 pktZero.streamIndex rBadSend.sendRet ::
        Event.packetFree 0 ::
        decodeLoop 0 [rGood] [qStop] 1 0 0 :=
  failed_send_skips_and_continues 0 rBadSend [rGood] [qStop] 0 0 0 pktZero
    (by decide) (by decide) (by decide) (by decide)

lemma streamInfo_countP_zero (p : Event → Bool)
    (hp1 : ∀ j v, p (Event.getStreamMediaType j v) = false)
    (hp2 : ∀ j v, p (Event.getStreamCodecId j v) = false) :
    ∀ (s : List (Int × Int)) (i : Nat),
      (streamInfoEvents i s).countP p = 0 := by
  intro s
  induction s with
  | nil => intro i; simp [streamInfoEvents]
  | cons x rest ih =>
    intro i
    simp [streamInfoEvents, List.countP_cons, hp1, hp2, ih (i + 1)]

lemma streamInfo_shape : ∀ (s : List (Int × Int)) (i : Nat) (e : Event),
    e ∈ streamInfoEvents i s →
    (∃ j v, e = Event.getStreamMediaType j v) ∨
    (∃ j v, e = Event.getStreamCodecId j v) := by
  intro s
  induction s with
  | nil => intro i e he; simp [streamInfoEvents] at he
  | cons x rest ih =>
    intro i e he
    simp only [streamInfoEvents, List.mem_cons] at he
    rcases he with rfl | rfl | he
    · exact Or.inl ⟨i, x.1, rfl⟩
    · exact Or.inr ⟨i, x.2, rfl⟩
    · exact ih (i + 1) e he

lemma loop_countP_zero_of_loopEvent_false (p : Event → Bool)
    (hp : ∀ e, isLoopEvent e = true → p e = false)
    (reads : List ReadOutcome) (a : Int) (recvs : List RecvOutcome)
    (pid fid : Nat) (fc : Int) :
    (decodeLoop a reads recvs pid fid fc).countP p = 0 :=
  countP_zero_of_all fun e he =>
    hp e (loop_events_spec reads a recvs pid fid fc e he).1

/-- C9: on every exit path of `main` that is reached after `tao_init`
(open-input failure, no audio stream, decoder creation failure, decoder
open failure, normal completion), `tao_shutdown` is called exactly once and
is the last boundary call, `tao_format_close` is called exactly once
whenever the format context was successfully opened, and `tao_codec_close`
exactly once whenever the decoder context was successfully created; the
only path without any of these calls is the usage-error path taken before
`tao_init` (fewer than two arguments). -/
theorem cleanup_on_every_exit_path (argc : Nat) (env : Env) :
    ((runMain argc env).1.countP isInitEv = if argc < 2 then 0 else 1) ∧
    ((runMain argc env).1.countP isShutdownEv = if argc < 2 then 0 else 1) ∧
    ((runMain argc env).1.getLast? =
      if argc < 2 then none else some Event.taoShutdown) ∧
    ((runMain argc env).1.countP isFormatCloseEv =
      if ¬ argc < 2 ∧ env.openInputOk = true then 1 else 0) ∧
    ((runMain argc env).1.countP isCodecCloseEv =
      if ¬ argc < 2 ∧ env.openInputOk = true ∧
          (findFirstAudio env.streams).isSome = true ∧
          env.createDecoderOk = true then 1 else 0) := by
  have hsiInit := streamInfo_countP_zero isInitEv
    (fun j v => rfl) (fun j v => rfl) env.streams 0
  have hsiShut := streamInfo_countP_zero isShutdownEv
    (fun j v => rfl) (fun j v => rfl) env.streams 0
  have hsiFmt := streamInfo_countP_zero isFormatCloseEv
    (fun j v => rfl) (fun j v => rfl) env.streams 0
  have hsiCod := streamInfo_countP_zero isCodecCloseEv
    (fun j v => rfl) (fun j v => rfl) env.streams 0
  by_cases h1 : argc < 2
  · refine ⟨?_, ?_, ?_, ?_, ?_⟩ <;> simp [runMain, h1]
  · by_cases hOpen : env.openInputOk = false
    · refine ⟨?_, ?_, ?_, ?_, ?_⟩ <;>
        simp [runMain, h1, hOpen, List.countP_cons, isInitEv, isShutdownEv,
          isFormatCloseEv, isCodecCloseEv, List.getLast?_cons,
          List.getLast?_append]
    · have hOpen2 : env.openInputOk = true := by
        simpa using hOpen
      rcases hfa : findFirstAudio env.streams with _ | ic
      · refine ⟨?_, ?_, ?_, ?_, ?_⟩ <;>
          simp [runMain, h1, hOpen, hOpen2, hfa, List.countP_append,
            List.countP_cons, isInitEv, isShutdownEv, isFormatCloseEv,
            isCodecCloseEv, hsiInit, hsiShut, hsiFmt, hsiCod,
            List.getLast?_cons, List.getLast?_append]
      · by_cases hCr : env.createDecoderOk = false
        · refine ⟨?_, ?_, ?_, ?_, ?_⟩ <;>
            simp [runMain, h1, hOpen, hOpen2, hfa, hCr, List.countP_append,
              List.countP_cons, isInitEv, isShutdownEv, isFormatCloseEv,
              isCodecCloseEv, hsiInit, hsiShut, hsiFmt, hsiCod,
              List.getLast?_cons, List.getLast?_append]
        · have hCr2 : env.createDecoderOk = true := by
            simpa using hCr
          by_cases hOd : env.openDecoderRet ≠ TAO_OK
          · refine ⟨?_, ?_, ?_, ?_, ?_⟩ <;>
              simp [runMain, h1, hOpen, hOpen2, hfa, hCr, hCr2, hOd,
                List.countP_append, List.countP_cons, isInitEv, isShutdownEv,
                isFormatCloseEv, isCodecCloseEv, hsiInit, hsiShut, hsiFmt,
                hsiCod, List.getLast?_cons, List.getLast?_append]
          · have hlInit := loop_countP_zero_of_loopEvent_false
              isInitEv (fun e he => (loop_event_props e he).1)
              env.reads (ic.1 : Int) env.recvs 0 0 0
            have hlShut := loop_countP_zero_of_loopEvent_false
              isShutdownEv (fun e he => (loop_event_props e he).2.1)
              env.reads (ic.1 : Int) env.recvs 0 0 0
            have hlFmt := loop_countP_zero_of_loopEvent_false
              isFormatCloseEv (fun e he => (loop_event_props e he).2.2.1)
              env.reads (ic.1 : Int) env.recvs 0 0 0
            have hlCod := loop_countP_zero_of_loopEvent_false
              isCodecCloseEv
              (fun e he => (loop_event_props e he).2.2.2.1)
              env.reads (ic.1 : Int) env.recvs 0 0 0
            refine ⟨?_, ?_, ?_, ?_, ?_⟩ <;>
              simp [runMain, h1, hOpen, hOpen2, hfa, hCr, hCr2, hOd,
                List.countP_append, List.countP_cons, isInitEv, isShutdownEv,
                isFormatCloseEv, isCodecCloseEv, hsiInit, hsiShut, hsiFmt,
                hsiCod, hlInit, hlShut, hlFmt, hlCod, List.getLast?_cons,
                List.getLast?_append]

/-- C10: for every input, the demo opens the decoder with the hard-coded
parameters — sample rate 44100, 2 channels, NULL extra data of size 0 —
regardless of the selected stream's actual codec parameters: any
`tao_codec_open_decoder` call appearing in any run's trace carries exactly
those arguments. -/
theorem decoder_opened_with_fixed_params (argc : Nat) (env : Env)
    (sr ch : Int) (ednull : Bool) (edsz ret : Int)
    (h : Event.codecOpenDecoder sr ch ednull edsz ret ∈ (runMain argc env).1) :
    sr = 44100 ∧ ch = 2 ∧ ednull = true ∧ edsz = 0 := by
  have hns : ∀ (s : List (Int × Int)) (i : Nat),
      Event.codecOpenDecoder sr ch ednull edsz ret ∉ streamInfoEvents i s := by
    intro s i hm
    rcases streamInfo_shape s i _ hm with ⟨j, v, he⟩ | ⟨j, v, he⟩ <;> simp at he
  have hnl : ∀ (reads : List ReadOutcome) (aa : Int)
      (recvs : List RecvOutcome) (pid fid : Nat) (fc : Int),
      Event.codecOpenDecoder sr ch ednull edsz ret ∉
        decodeLoop aa reads recvs pid fid fc := by
    intro reads aa recvs pid fid fc hm
    have := (loop_event_props _
      (loop_events_spec reads aa recvs pid fid fc _ hm).1).2.2.2.2.1
    simp [isCodecOpenEv] at this
  by_cases h1 : argc < 2
  · simp [runMain, h1] at h
  · by_cases hOpen : env.openInputOk = false
    · simp [runMain, h1, hOpen] at h
    · rcases hfa : findFirstAudio env.streams with _ | ic
      · simp [runMain, h1, hOpen, hfa, hns] at h
      · by_cases hCr : env.createDecoderOk = false
        · simp [runMain, h1, hOpen, hfa, hCr, hns] at h
        · by_cases hOd : env.openDecoderRet ≠ TAO_OK
          · simp [runMain, h1, hOpen, hfa, hCr, hOd, hns] at h
            exact ⟨h.1, h.2.1, h.2.2.1, h.2.2.2.1⟩
          · simp [runMain, h1, hOpen, hfa, hCr, hOd, hns, hnl] at h
            exact ⟨h.1, h.2.1, h.2.2.1, h.2.2.2.1⟩

/-- Witness for C10: the sample run reaches the decoder-open call, and its
arguments are the fixed ones. -/
theorem decoder_opened_with_fixed_params_witness :
    (44100 : Int) = 44100 ∧ (2 : Int) = 2 ∧ true = true ∧ (0 : Int) = 0 :=
  decoder_opened_with_fixed_params 2 envA 44100 2 true 0 TAO_OK (by decide)

end DecodeAudio
